import Mathlib

/-!
# A verification development for the `pygame-soccer` environment core

This file gives a shallow embedding, in Lean 4, of the state-transition
core of `pygame_soccer/soccer/soccer_environment.py`, and proves (or
refutes) the frozen claims about it.

Modelling conventions, used throughout:

* Grid positions are pairs of mathematical integers (`Pos`); the source
  stores them as 2-element Python lists of ints.
* The source measures distances with `np.linalg.norm`, i.e. the Euclidean
  norm (a float).  Every use of a distance in the source is a comparison
  (`<`, `>`, `>= 1.0`, argmin, argmax) between square roots of
  *integers*; since `Real.sqrt` is strictly monotone, all of those
  comparisons are equivalent to the same comparisons between the squared
  distances.  The embedding therefore represents each distance by its
  square (`get_pos_distance_sq`), an integer, and the threshold `1.0`
  by the squared threshold `1`.
* Python's `random` calls become explicit oracle parameters:
  `random.choice(l)` on a list becomes an oracle natural number `k`
  selecting `l[k % len(l)]` (raising `IndexError` when `l` is empty,
  as `random.choice` does), `random.randrange(n)` becomes `k % n`, and
  `random.sample(actions, 5)` becomes an oracle-supplied list of
  actions.  Theorems quantify over the oracles.
* The `intended_pos` Python dict always has exactly the keys
  `0 .. agent_size - 1`, inserted in increasing order, and is iterated
  in that insertion order; it is modelled as a function `Nat → Pos`
  together with the agent count.  The `overlapping_pos_to_agent` dict is
  modelled as an insertion-ordered association list, exactly mirroring
  dict semantics.
* Python exceptions become an `Except Err` result: `ValueError`,
  `KeyError`, `IndexError` (from `random.choice` on an empty list),
  `TypeError` (from subscripting the `None` returned by
  `get_ball_possession`).  Dispatches on closed enumerations
  (team names, actions, modes) cannot reach the source's
  `KeyError('Unknown ...')` branches, because the embedding uses closed
  inductive types for them.
* The source's `while detecting_overlap` loop has no fuel; the embedding
  runs it on explicit fuel and returns a `NonTermination` error when the
  fuel runs out.  The termination theorem below shows that fuel
  `agent_size + 1` always suffices on states satisfying the reachable
  invariants, so on those states the embedding and the source agree.
-/

namespace PygameSoccer

/-- The two team names, `SoccerEnvironment.team_names`. -/
inductive Team where
  | PLAYER
  | COMPUTER
deriving DecidableEq, Repr

/-- `SoccerEnvironment.team_names` as a list, in source order. -/
def team_names : List Team := [Team.PLAYER, Team.COMPUTER]

/-- The computer modes, `SoccerEnvironment.modes`. -/
inductive Mode where
  | DEFENSIVE
  | OFFENSIVE
deriving DecidableEq, Repr

/-- `SoccerEnvironment.modes` as a list, in source order. -/
def modes : List Mode := [Mode.DEFENSIVE, Mode.OFFENSIVE]

/-- The five actions, `SoccerEnvironment.actions`. -/
inductive Action where
  | MOVE_RIGHT
  | MOVE_UP
  | MOVE_LEFT
  | MOVE_DOWN
  | STAND
deriving DecidableEq, Repr

/-- `SoccerEnvironment.actions` as a list, in source order. -/
def actions : List Action := [Action.MOVE_RIGHT, Action.MOVE_UP,
  Action.MOVE_LEFT, Action.MOVE_DOWN, Action.STAND]

/-- A tile position: a 2-element list `[x, y]` of ints in the source. -/
structure Pos where
  x : Int
  y : Int
deriving DecidableEq, Repr

/-- The strategic modes passed to `_get_strategic_action` (strings in the
source). -/
inductive StrategicMode where
  | APPROACH
  | AVOID
  | INTERCEPT
deriving DecidableEq, Repr

/-- The Python exceptions that the embedded code can raise. -/
inductive Err where
  | ValueError
  | KeyError
  | IndexError
  | TypeError
  | NonTermination
deriving DecidableEq, Repr

/-- `SoccerEnvironment.get_moved_pos`: move one tile in the 4-direction
grid, or stand still. -/
def get_moved_pos (pos : Pos) (action : Action) : Pos :=
  match action with
  | Action.MOVE_RIGHT => { pos with x := pos.x + 1 }
  | Action.MOVE_UP => { pos with y := pos.y - 1 }
  | Action.MOVE_LEFT => { pos with x := pos.x - 1 }
  | Action.MOVE_DOWN => { pos with y := pos.y + 1 }
  | Action.STAND => pos

/-- `SoccerEnvironment.get_pos_distance`, represented by its square.
The source computes `np.linalg.norm([x2 - x1, y2 - y1])`; every use of
that value in the source is an order comparison against another such
norm or against `1.0`, and squaring is strictly monotone on
nonnegative reals, so the squared integer distance is an exact model. -/
def get_pos_distance_sq (pos1 pos2 : Pos) : Int :=
  (pos2.x - pos1.x) * (pos2.x - pos1.x) + (pos2.y - pos1.y) * (pos2.y - pos1.y)

/-- `SoccerMapData`: spawn, goal and walkable tile sets, as delivered by
the external map loader.  `goals t` holds the goal tiles in which team
`t` scores (they lie on the opposing team's side of the pitch; the
source's `is_agent_win` looks an agent's own team name up in this map,
and `_get_computer_action` looks up `goals['PLAYER']` to defend and
`goals['COMPUTER']` to score). -/
structure SoccerMapData where
  spawn : Team → List Pos
  goals : Team → List Pos
  walkable : List Pos

/-- The goal tiles in which team `t` scores.  In the map data these are
the tiles of the goal that the *opposing* team owns and defends, which
is what the specification calls the opposing team's goal set. -/
def opposing_goal_area (md : SoccerMapData) (t : Team) : List Pos :=
  md.goals t

/-- `SoccerEnvironmentOptions` after successful construction. -/
structure SoccerEnvironmentOptions where
  team_size : Nat
deriving DecidableEq, Repr

/-- `SoccerEnvironmentOptions.__init__` (the team-size validation part;
the map path is external).  The argument is a Python int, modelled as
`Int`.  The source raises `ValueError` unless `1 <= team_size <= 2`. -/
def SoccerEnvironmentOptions.init (team_size : Int) :
    Except Err SoccerEnvironmentOptions :=
  if ¬ (team_size ≥ 1 ∧ team_size ≤ 2) then Except.error Err.ValueError
  else Except.ok ⟨team_size.toNat⟩

/-- `SoccerEnvironmentOptions.get_agent_size`. -/
def get_agent_size (opts : SoccerEnvironmentOptions) : Nat :=
  2 * opts.team_size

/-- `SoccerEnvironment.get_agent_index`: global index =
`team_size * group_index + team_agent_index`. -/
def get_agent_index (opts : SoccerEnvironmentOptions) (team_name : Team)
    (team_agent_index : Nat) : Nat :=
  match team_name with
  | Team.PLAYER => opts.team_size * 0 + team_agent_index
  | Team.COMPUTER => opts.team_size * 1 + team_agent_index

/-- One entry of `SoccerState.agent_list`: the per-agent dict with keys
`pos`, `ball`, `mode`, `action`.  `reset` briefly stores `None`
positions before `randomize` fills them; the embedding models
`randomize` as building the fully placed list directly (see
`SoccerState.randomize` below), so `pos` is not optional here. -/
structure AgentEntry where
  pos : Pos
  ball : Bool
  mode : Option Mode
  action : Option Action
deriving DecidableEq, Repr

/-- Junk entry used to totalise list indexing; every verified call site
indexes within bounds, where Python indexing succeeds. -/
def defaultAgent : AgentEntry :=
  { pos := ⟨0, 0⟩, ball := false, mode := none, action := none }

/-- `SoccerState`: the agent list plus the time step. -/
structure SoccerState where
  agent_list : List AgentEntry
  time_step : Nat
deriving DecidableEq, Repr

/-- `SoccerState.get_agent_pos`. -/
def SoccerState.get_agent_pos (s : SoccerState) (i : Nat) : Pos :=
  (s.agent_list.getD i defaultAgent).pos

/-- `SoccerState.set_agent_pos`. -/
def SoccerState.set_agent_pos (s : SoccerState) (i : Nat) (p : Pos) :
    SoccerState :=
  { s with agent_list :=
      s.agent_list.set i { s.agent_list.getD i defaultAgent with pos := p } }

/-- `SoccerState.get_agent_ball`. -/
def SoccerState.get_agent_ball (s : SoccerState) (i : Nat) : Bool :=
  (s.agent_list.getD i defaultAgent).ball

/-- `SoccerState.set_agent_ball`. -/
def SoccerState.set_agent_ball (s : SoccerState) (i : Nat) (b : Bool) :
    SoccerState :=
  { s with agent_list :=
      s.agent_list.set i { s.agent_list.getD i defaultAgent with ball := b } }

/-- `SoccerState.get_agent_mode`. -/
def SoccerState.get_agent_mode (s : SoccerState) (i : Nat) : Option Mode :=
  (s.agent_list.getD i defaultAgent).mode

/-- `SoccerState.set_agent_mode`. -/
def SoccerState.set_agent_mode (s : SoccerState) (i : Nat) (m : Option Mode) :
    SoccerState :=
  { s with agent_list :=
      s.agent_list.set i { s.agent_list.getD i defaultAgent with mode := m } }

/-- `SoccerState.set_agent_action`. -/
def SoccerState.set_agent_action (s : SoccerState) (i : Nat)
    (a : Option Action) : SoccerState :=
  { s with agent_list :=
      s.agent_list.set i { s.agent_list.getD i defaultAgent with action := a } }

/-- `SoccerState.get_team_name`. -/
def get_team_name (opts : SoccerEnvironmentOptions) (i : Nat) : Team :=
  if i < opts.team_size then Team.PLAYER else Team.COMPUTER

/-- `SoccerState.switch_ball`: toggle `a`'s flag, give `b` the pre-toggle
value. -/
def SoccerState.switch_ball (s : SoccerState) (i j : Nat) : SoccerState :=
  let agent_ball := s.get_agent_ball i
  let s1 := s.set_agent_ball i (!agent_ball)
  s1.set_agent_ball j agent_ball

/-- `SoccerState.increase_time_step`. -/
def SoccerState.increase_time_step (s : SoccerState) : SoccerState :=
  { s with time_step := s.time_step + 1 }

/-- The `(team_name, team_agent_index, agent_index)` record returned by
`get_pos_status` and `get_ball_possession`. -/
structure AgentRef where
  team_name : Team
  team_agent_index : Nat
  agent_index : Nat
deriving DecidableEq, Repr

/-- The enumeration `for team_name in team_names: for k in
range(team_size)` used all over the source, together with the computed
global index.  Its global indices are exactly `0 .. 2*team_size - 1`
in increasing order. -/
def agent_enum (opts : SoccerEnvironmentOptions) : List AgentRef :=
  team_names.flatMap (fun t =>
    (List.range opts.team_size).map (fun k => ⟨t, k, get_agent_index opts t k⟩))

/-- `SoccerState.get_pos_status`: the first enumerated agent standing at
`pos`, if any. -/
def SoccerState.get_pos_status (opts : SoccerEnvironmentOptions)
    (s : SoccerState) (pos : Pos) : Option AgentRef :=
  (agent_enum opts).find? (fun r => s.get_agent_pos r.agent_index = pos)

/-- `SoccerState.get_ball_possession`: the first enumerated agent whose
ball flag is set; `None` (not an exception) when there is none. -/
def SoccerState.get_ball_possession (opts : SoccerEnvironmentOptions)
    (s : SoccerState) : Option AgentRef :=
  (agent_enum opts).find? (fun r => s.get_agent_ball r.agent_index)

/-- `SoccerState.is_agent_win`: the agent holds the ball and stands in
`goals[own team name]`, i.e. in the goal area in which its team
scores. -/
def SoccerState.is_agent_win (opts : SoccerEnvironmentOptions)
    (md : SoccerMapData) (s : SoccerState) (i : Nat) : Bool :=
  let agent_pos := s.get_agent_pos i
  let has_ball := s.get_agent_ball i
  if ¬ has_ball then false
  else decide (agent_pos ∈ md.goals (get_team_name opts i))

/-- `SoccerState.is_team_win`. -/
def SoccerState.is_team_win (opts : SoccerEnvironmentOptions)
    (md : SoccerMapData) (s : SoccerState) (team_name : Team) : Bool :=
  (List.range opts.team_size).any (fun k =>
    s.is_agent_win opts md (get_agent_index opts team_name k))

/-- `SoccerState.is_terminal`. -/
def SoccerState.is_terminal (opts : SoccerEnvironmentOptions)
    (md : SoccerMapData) (s : SoccerState) : Bool :=
  if s.time_step ≥ 100 then true
  else (List.range (get_agent_size opts)).any (fun i =>
    s.is_agent_win opts md i)

/-! ## Reset and randomize -/

/-- The random oracles consumed by `SoccerState.reset`.
`teamBallR` drives `random.choice(team_names)`, `agentBallR` drives
`random.randrange(team_size)`, `posR` is the stream of
`random.choice(spawn[team_name])` draws of the rejection-sampling
placement loop (`posFuel` bounds that loop, which the source runs
unboundedly; a `none` result models the source spinning forever or
`random.choice` on an empty spawn list), and `modeR` drives
`random.choice(modes)` for each computer agent. -/
structure ResetRand where
  teamBallR : Nat
  agentBallR : Nat
  posR : Nat → Nat
  posFuel : Nat
  modeR : Nat → Nat

/-- The rejection-sampling placement loop of `SoccerState.randomize`:
keep drawing from `spawnList` until the drawn tile is not occupied.
`t` is the position of the next draw in the oracle stream. -/
def pick_spawn_pos (spawnList : List Pos) (occupied : Pos → Bool)
    (posR : Nat → Nat) : Nat → Nat → Option (Pos × Nat)
  | _, 0 => none
  | t, fuel + 1 =>
    match spawnList.get? (posR t % spawnList.length) with
    | none => none
    | some p =>
      if occupied p then pick_spawn_pos spawnList occupied posR (t + 1) fuel
      else some (p, t + 1)

/-- The body of `SoccerState.randomize`, which places the agents one by
one in enumeration order.  `randomize` is invoked only by `reset`,
immediately after every position has been cleared to `None`, so the
source's occupancy test `get_pos_status(agent_pos)` can only match
agents already placed earlier in the same pass; the embedding therefore
checks the drawn tile against the positions accumulated in `acc`. -/
def randomize_entry (team_has_ball : Team) (team_agent_has_ball : Nat)
    (r : ResetRand) (ref : AgentRef) (agent_pos : Pos) : AgentEntry :=
  let set_ball := decide (ref.team_name = team_has_ball ∧
    ref.team_agent_index = team_agent_has_ball)
  let computer_mode : Option Mode :=
    if ref.team_name = Team.COMPUTER then
      some (modes.getD (r.modeR ref.agent_index % modes.length)
        Mode.DEFENSIVE)
    else none
  { pos := agent_pos, ball := set_ball, mode := computer_mode,
    action := some Action.STAND }

def randomize_aux (md : SoccerMapData) (team_has_ball : Team)
    (team_agent_has_ball : Nat) (r : ResetRand) :
    List AgentRef → List AgentEntry → Nat → Option (List AgentEntry)
  | [], acc, _ => some acc
  | ref :: rest, acc, t =>
    match pick_spawn_pos (md.spawn ref.team_name)
        (fun p => decide (p ∈ acc.map (fun e => e.pos))) r.posR t r.posFuel with
    | none => none
    | some (agent_pos, t1) =>
      randomize_aux md team_has_ball team_agent_has_ball r rest
        (acc ++ [randomize_entry team_has_ball team_agent_has_ball r ref
          agent_pos]) t1

/-- `SoccerState.randomize`: pick the ball-owning `(team, local index)`
pair, then place every agent, set its ball flag, mode, and last action
(`actions[-1]`, i.e. `STAND`). -/
def SoccerState.randomize (opts : SoccerEnvironmentOptions)
    (md : SoccerMapData) (r : ResetRand) : Option (List AgentEntry) :=
  let team_has_ball := team_names.getD (r.teamBallR % team_names.length)
    Team.PLAYER
  let team_agent_has_ball := r.agentBallR % opts.team_size
  randomize_aux md team_has_ball team_agent_has_ball r (agent_enum opts) [] 0

/-- `SoccerState.reset`: reinitialize the agent list through `randomize`
and zero the time step. -/
def SoccerState.reset (opts : SoccerEnvironmentOptions)
    (md : SoccerMapData) (r : ResetRand) : Option SoccerState :=
  (SoccerState.randomize opts md r).map (fun l => ⟨l, 0⟩)

/-! ## Scripted opponent policy -/

/-- `np.argmin`: index of the first minimal element, `None` on the empty
list (where `np.argmin` raises `ValueError`). -/
def np_argmin (l : List Int) : Option Nat :=
  (l.enum.foldl (fun acc p =>
    match acc with
    | none => some p
    | some q => if p.2 < q.2 then some p else some q) none).map (fun p => p.1)

/-- `np.argmax`: index of the first maximal element. -/
def np_argmax (l : List Int) : Option Nat :=
  (l.enum.foldl (fun acc p =>
    match acc with
    | none => some p
    | some q => if p.2 > q.2 then some p else some q) none).map (fun p => p.1)

/-- The per-step random oracles.  `defAct i` is the
`random.choice(self.actions)` default of `_get_strategic_action` and
`shuffleAct i` its `random.sample(self.actions, 5)` shuffle, both for
the computer agent with global index `i`; `ballPick` drives the single
`random.choice(no_ball_agent_list)` that `_update_ball_possession` can
perform in a step. -/
structure StepRand where
  defAct : Nat → Action
  shuffleAct : Nat → List Action
  ballPick : Nat

/-- The body of `_get_strategic_action`'s candidate loop: skip
non-walkable moves, otherwise update the incumbent `(best_action,
best_dist)` pair according to the strategic mode's comparator. -/
def strategic_step (md : SoccerMapData) (source_pos target_pos : Pos)
    (mode : StrategicMode) (best : Action × Int) (action : Action) :
    Action × Int :=
  let moved_pos := get_moved_pos source_pos action
  if ¬ moved_pos ∈ md.walkable then best
  else
    let moved_dist := get_pos_distance_sq moved_pos target_pos
    match mode with
    | StrategicMode.APPROACH =>
      if moved_dist < best.2 then (action, moved_dist) else best
    | StrategicMode.AVOID =>
      if moved_dist > best.2 then (action, moved_dist) else best
    | StrategicMode.INTERCEPT =>
      if moved_dist < best.2 ∧ moved_dist ≥ 1 then (action, moved_dist)
      else best

/-- `SoccerEnvironment._get_strategic_action`: start from the
oracle-chosen default action paired with the original (`STAND`)
distance, scan the shuffled candidates, return the final incumbent.
The unknown-mode `KeyError` branch is unreachable because
`StrategicMode` is closed. -/
def get_strategic_action (md : SoccerMapData) (source_pos target_pos : Pos)
    (mode : StrategicMode) (default_action : Action)
    (shuffled_actions : List Action) : Action :=
  let orig_dist := get_pos_distance_sq source_pos target_pos
  let best := shuffled_actions.foldl
    (strategic_step md source_pos target_pos mode) (default_action, orig_dist)
  best.1

/-- `SoccerEnvironment._get_nearest_player_index`: the player agent at
minimal distance, first minimal found; `none` only when
`team_size = 0` (the source then returns `None`). -/
def get_nearest_player_index (opts : SoccerEnvironmentOptions)
    (s : SoccerState) (computer_agent_index : Nat) : Option Nat :=
  let agent_index := get_agent_index opts Team.COMPUTER computer_agent_index
  let computer_pos := s.get_agent_pos agent_index
  ((List.range opts.team_size).foldl (fun acc player_agent_index =>
    let agent_index := get_agent_index opts Team.PLAYER player_agent_index
    let player_pos := s.get_agent_pos agent_index
    let dist := get_pos_distance_sq computer_pos player_pos
    match acc with
    | none => some (agent_index, dist)
    | some q => if dist < q.2 then some (agent_index, dist) else some q)
    none).map (fun q => q.1)

/-- `SoccerEnvironment._get_defensive_agent_index`.  When
`get_ball_possession` returns `None` the source subscripts `None` and
raises `TypeError`; likewise a `None` nearest player would be
subscripted downstream. -/
def get_defensive_agent_index (opts : SoccerEnvironmentOptions)
    (s : SoccerState) (computer_agent_index : Nat) : Except Err Nat :=
  match s.get_ball_possession opts with
  | none => Except.error Err.TypeError
  | some ball_possession =>
    if ball_possession.team_name = Team.PLAYER then
      Except.ok ball_possession.agent_index
    else
      match get_nearest_player_index opts s computer_agent_index with
      | none => Except.error Err.TypeError
      | some i => Except.ok i

/-- `SoccerEnvironment._get_computer_action`.  A `None` mode reaches the
source's `KeyError('Unknown computer agent mode ...')`. -/
def get_computer_action (opts : SoccerEnvironmentOptions)
    (md : SoccerMapData) (s : SoccerState) (r : StepRand)
    (computer_agent_index : Nat) : Except Err Action := do
  let agent_index := get_agent_index opts Team.COMPUTER computer_agent_index
  let computer_ball := s.get_agent_ball agent_index
  let computer_mode := s.get_agent_mode agent_index
  let nearest_player_index ←
    match get_nearest_player_index opts s computer_agent_index with
    | none => Except.error Err.TypeError
    | some i => Except.ok i
  let nearest_player_pos := s.get_agent_pos nearest_player_index
  let defensive_target_agent_index ←
    get_defensive_agent_index opts s computer_agent_index
  let defensive_target_agent_pos :=
    s.get_agent_pos defensive_target_agent_index
  let computer_pos := s.get_agent_pos agent_index
  let target : Pos × StrategicMode ←
    match computer_mode with
    | some Mode.DEFENSIVE =>
      if computer_ball then
        Except.ok (nearest_player_pos, StrategicMode.AVOID)
      else
        let goals := md.goals Team.PLAYER
        let distances := goals.map (fun goal_pos =>
          get_pos_distance_sq goal_pos defensive_target_agent_pos)
        match np_argmin distances with
        | none => Except.error Err.ValueError
        | some min_distance_index =>
          Except.ok (goals.getD min_distance_index ⟨0, 0⟩,
            StrategicMode.APPROACH)
    | some Mode.OFFENSIVE =>
      if computer_ball then
        let goals := md.goals Team.COMPUTER
        let distances := goals.map (fun goal_pos =>
          get_pos_distance_sq goal_pos nearest_player_pos)
        match np_argmax distances with
        | none => Except.error Err.ValueError
        | some min_distance_index =>
          Except.ok (goals.getD min_distance_index ⟨0, 0⟩,
            StrategicMode.APPROACH)
      else
        Except.ok (defensive_target_agent_pos, StrategicMode.INTERCEPT)
    | none => Except.error Err.KeyError
  Except.ok (get_strategic_action md computer_pos target.1 target.2
    (r.defAct agent_index) (r.shuffleAct agent_index))

/-! ## Intended positions, overlap resolution, and the step -/

/-- Pointwise update of an intended-position map (a Python dict with
keys `0 .. agent_size - 1`, modelled as a function). -/
def updFn (f : Nat → Pos) (i : Nat) (p : Pos) : Nat → Pos :=
  fun j => if j = i then p else f j

/-- The body of `SoccerEnvironment._get_intended_pos`: for each agent in
enumeration order, record the chosen action in the state, and map the
agent to its moved position if that is walkable, else to its current
position.  Player agents read `action[team_agent_index]` (in-range
because `_get_wrapped_action` already checked the arity; an
out-of-range read would be the source's `IndexError`), computer agents
ask the opponent policy. -/
def intended_pos_aux (opts : SoccerEnvironmentOptions) (md : SoccerMapData)
    (action : List Action) (r : StepRand) :
    List AgentRef → SoccerState → (Nat → Pos) →
    Except Err (SoccerState × (Nat → Pos))
  | [], s, f => Except.ok (s, f)
  | ref :: rest, s, f => do
    let pos := s.get_agent_pos ref.agent_index
    let agent_action ←
      match ref.team_name with
      | Team.PLAYER =>
        match action.get? ref.team_agent_index with
        | some a => Except.ok a
        | none => Except.error Err.IndexError
      | Team.COMPUTER => get_computer_action opts md s r ref.team_agent_index
    let s1 := s.set_agent_action ref.agent_index (some agent_action)
    let moved_pos := get_moved_pos pos agent_action
    let f1 := if moved_pos ∈ md.walkable then updFn f ref.agent_index moved_pos
      else updFn f ref.agent_index pos
    intended_pos_aux opts md action r rest s1 f1

/-- `SoccerEnvironment._get_intended_pos`. -/
def get_intended_pos (opts : SoccerEnvironmentOptions) (md : SoccerMapData)
    (s : SoccerState) (action : List Action) (r : StepRand) :
    Except Err (SoccerState × (Nat → Pos)) :=
  intended_pos_aux opts md action r (agent_enum opts) s (fun _ => ⟨0, 0⟩)

/-- Insert agent `i` with key `p` into the insertion-ordered association
list that models the `overlapping_pos_to_agent` dict: append to the
existing entry for `p`, or add a new entry at the end. -/
def addToGroup (groups : List (Pos × List Nat)) (p : Pos) (i : Nat) :
    List (Pos × List Nat) :=
  match groups with
  | [] => [(p, [i])]
  | (q, l) :: rest =>
    if q = p then (q, l ++ [i]) :: rest else (q, l) :: addToGroup rest p i

/-- Lookup of a key's member list in the association list (the members
of the first — under the dict model, only — entry with that key; `[]`
when the key is absent). -/
def findGroup (groups : List (Pos × List Nat)) (p : Pos) : List Nat :=
  match groups with
  | [] => []
  | (q, l) :: rest => if q = p then l else findGroup rest p

/-- The key under which `_get_overlapping_pos_to_agent` files agent
`agent_index`: its intended position, or its current position when the
intended one is not walkable. -/
def effective_pos (md : SoccerMapData) (s : SoccerState)
    (intended : Nat → Pos) (agent_index : Nat) : Pos :=
  let pos := intended agent_index
  if ¬ pos ∈ md.walkable then s.get_agent_pos agent_index else pos

/-- `SoccerEnvironment._get_overlapping_pos_to_agent`: group the agents
by their effective position.  The `intended_pos` dict iterates agents
in key order `0 .. n - 1`. -/
def get_overlapping_pos_to_agent (md : SoccerMapData) (s : SoccerState)
    (n : Nat) (intended : Nat → Pos) : List (Pos × List Nat) :=
  (List.range n).foldl (fun groups agent_index =>
    addToGroup groups (effective_pos md s intended agent_index) agent_index) []

/-- `SoccerEnvironment._update_ball_possession`: find the (last) ball
holder in the list and the non-holders; when a holder exists, move the
ball to the oracle-chosen non-holder (`random.choice` raises
`IndexError` when there is none) and report that a switch occurred. -/
def update_ball_possession (s : SoccerState) (ballPick : Nat)
    (agent_index_list : List Nat) : Except Err (SoccerState × Bool) :=
  let has_ball_agent_index := agent_index_list.foldl (fun acc agent_index =>
    if s.get_agent_ball agent_index then some agent_index else acc) none
  let no_ball_agent_list := agent_index_list.filter (fun agent_index =>
    ¬ s.get_agent_ball agent_index)
  match has_ball_agent_index with
  | none => Except.ok (s, false)
  | some a =>
    match no_ball_agent_list.get? (ballPick % no_ball_agent_list.length) with
    | none => Except.error Err.IndexError
    | some b => Except.ok (s.switch_ball a b, true)

/-- Processing of a single `(position, claimant list)` group inside the
`for` loop of `_update_agent_pos`: for a group of two or more
claimants, switch the ball at most once per step and roll every
claimant back to its current position; leave singleton groups alone.
The running tuple is `(state, intended map, has_switched,
detecting_overlap)`. -/
def overlap_group_step (md : SoccerMapData) (ballPick : Nat)
    (st : SoccerState × (Nat → Pos) × Bool × Bool) (g : Pos × List Nat) :
    Except Err (SoccerState × (Nat → Pos) × Bool × Bool) := do
  let (s1, intended1, hs1, _det1) := st
  if g.2.length > 1 then do
    let (s2, hs2) ←
      if ¬ hs1 then do
        let (s2, switch) ← update_ball_possession s1 ballPick g.2
        Except.ok (s2, hs1 || switch)
      else Except.ok (s1, hs1)
    let intended2 := g.2.foldl (fun f agent_index =>
      updFn f agent_index (s2.get_agent_pos agent_index)) intended1
    Except.ok (s2, intended2, hs2, true)
  else Except.ok st

/-- One iteration of the `while detecting_overlap` loop of
`SoccerEnvironment._update_agent_pos`: compute the groups once, then
process every group in dict order. -/
def overlap_iteration (md : SoccerMapData) (n : Nat) (ballPick : Nat)
    (s : SoccerState) (intended : Nat → Pos) (has_switched : Bool) :
    Except Err (SoccerState × (Nat → Pos) × Bool × Bool) :=
  (get_overlapping_pos_to_agent md s n intended).foldlM
    (overlap_group_step md ballPick) (s, intended, has_switched, false)

/-- The `while detecting_overlap` loop, on explicit fuel.  Exhausted fuel
(`NonTermination`) models the source looping forever; the termination
theorem below shows fuel `n + 1` suffices whenever the current agent
positions are pairwise distinct and at most one agent holds the
ball. -/
def update_agent_pos_loop (md : SoccerMapData) (n : Nat) (ballPick : Nat) :
    Nat → SoccerState → (Nat → Pos) → Bool →
    Except Err (SoccerState × (Nat → Pos) × Bool)
  | 0, _, _, _ => Except.error Err.NonTermination
  | fuel + 1, s, intended, has_switched => do
    let (s1, intended1, hs1, detecting) ←
      overlap_iteration md n ballPick s intended has_switched
    if detecting then update_agent_pos_loop md n ballPick fuel s1 intended1 hs1
    else Except.ok (s1, intended1, hs1)

/-- Commit the surviving intended positions (`for (agent_index, pos) in
intended_pos.items(): set_agent_pos`). -/
def commit_positions (n : Nat) (s : SoccerState) (intended : Nat → Pos) :
    SoccerState :=
  (List.range n).foldl (fun s1 agent_index =>
    s1.set_agent_pos agent_index (intended agent_index)) s

/-- `SoccerEnvironment._update_agent_pos`: run the overlap loop to its
fixed point, then commit.  The embedding runs the loop on fuel
`agent_size + 1`, which the termination theorem shows to be enough on
every state reachable through the public interface. -/
def update_agent_pos (opts : SoccerEnvironmentOptions) (md : SoccerMapData)
    (s : SoccerState) (intended : Nat → Pos) (ballPick : Nat) :
    Except Err SoccerState := do
  let n := get_agent_size opts
  let (s1, intended1, _) ←
    update_agent_pos_loop md n ballPick (n + 1) s intended false
  Except.ok (commit_positions n s1 intended1)

/-- `SoccerEnvironment._get_wrapped_action`: the action list must have
exactly `team_size` entries (`ValueError` otherwise).  The source's
scalar-to-singleton wrapping for `team_size = 1` is untyped sugar; the
embedding takes the list form directly. -/
def get_wrapped_action (opts : SoccerEnvironmentOptions)
    (action : List Action) : Except Err (List Action) :=
  if action.length ≠ opts.team_size then Except.error Err.ValueError
  else Except.ok action

/-- `SoccerEnvironment._get_reward` (`1.0`, `-1.0`, `0.0` as
integers). -/
def get_reward (opts : SoccerEnvironmentOptions) (md : SoccerMapData)
    (s : SoccerState) : Int :=
  if s.is_team_win opts md Team.PLAYER then 1
  else if s.is_team_win opts md Team.COMPUTER then -1
  else 0

/-- The observation returned by `take_action` (`state` is `None` there;
`next_state` is the mutated state, returned alongside here). -/
structure SoccerObservation where
  action : List Action
  reward : Int
deriving DecidableEq, Repr

/-- `SoccerEnvironment.take_action`: wrap and validate the action,
compute every agent's intended position (recording actions and asking
the opponent policy), resolve overlaps, commit, advance the time step,
and compute the reward — with no terminal-state check anywhere. -/
def take_action (opts : SoccerEnvironmentOptions) (md : SoccerMapData)
    (s : SoccerState) (action : List Action) (r : StepRand) :
    Except Err (SoccerObservation × SoccerState) := do
  let action ← get_wrapped_action opts action
  let (s1, intended) ← get_intended_pos opts md s action r
  let s2 ← update_agent_pos opts md s1 intended r.ballPick
  let s3 := s2.increase_time_step
  let reward := get_reward opts md s3
  Except.ok (⟨action, reward⟩, s3)

/-- The states reachable through the public interface: the state
delivered by a successful `reset`, and any state produced from a
reachable one by a successful `take_action`, for any random draws and
any supplied action list. -/
inductive Reachable (opts : SoccerEnvironmentOptions) (md : SoccerMapData) :
    SoccerState → Prop where
  | reset (r : ResetRand) (s : SoccerState)
      (h : SoccerState.reset opts md r = some s) : Reachable opts md s
  | step (s s' : SoccerState) (action : List Action) (r : StepRand)
      (obs : SoccerObservation) (hs : Reachable opts md s)
      (h : take_action opts md s action r = Except.ok (obs, s')) :
      Reachable opts md s'

/-- Number of ball-holding agents in a state. -/
def ballCount (s : SoccerState) : Nat :=
  s.agent_list.countP (fun e => e.ball)

/-- The list of agent positions, in index order. -/
def posList (s : SoccerState) : List Pos :=
  s.agent_list.map (fun e => e.pos)

/-- The list of ball flags, in index order. -/
def ballFlags (s : SoccerState) : List Bool :=
  s.agent_list.map (fun e => e.ball)

/-- The number of agents still trying to move: those whose intended
position differs from their current one.  Each overlap-detecting
iteration of the `while detecting_overlap` loop strictly decreases this
measure, which is what bounds the loop. -/
def movers (s : SoccerState) (n : Nat) (intended : Nat → Pos) : Nat :=
  (List.range n).countP (fun i => decide (intended i ≠ s.get_agent_pos i))

/-! ## Concrete fixtures for witnesses and counterexamples -/

/-- A one-agent-per-team option value. -/
def opts1 : SoccerEnvironmentOptions := ⟨1⟩

/-- A tiny three-tile corridor map with one spawn tile per team. -/
def mdCorridor : SoccerMapData where
  spawn := fun t => match t with
    | Team.PLAYER => [⟨0, 0⟩]
    | Team.COMPUTER => [⟨2, 0⟩]
  goals := fun t => match t with
    | Team.PLAYER => [⟨2, 0⟩]
    | Team.COMPUTER => [⟨0, 0⟩]
  walkable := [⟨0, 0⟩, ⟨1, 0⟩, ⟨2, 0⟩]

/-- Deterministic reset draws for the corridor fixture. -/
def resetRand0 : ResetRand where
  teamBallR := 0
  agentBallR := 0
  posR := fun _ => 0
  posFuel := 3
  modeR := fun _ => 0

/-- The state produced by `reset` on the corridor fixture with
`resetRand0`: the player holds the ball at `(0,0)`, the defensive
computer stands at `(2,0)`. -/
def stateReset0 : SoccerState where
  agent_list :=
    [{ pos := ⟨0, 0⟩, ball := true, mode := none,
       action := some Action.STAND },
     { pos := ⟨2, 0⟩, ball := false, mode := some Mode.DEFENSIVE,
       action := some Action.STAND }]
  time_step := 0

/-- A corrupted two-agent state in which *both* agents hold a ball, at
distinct positions. -/
def stateTwoBalls : SoccerState where
  agent_list :=
    [{ pos := ⟨0, 0⟩, ball := true, mode := none,
       action := some Action.STAND },
     { pos := ⟨1, 0⟩, ball := true, mode := some Mode.DEFENSIVE,
       action := some Action.STAND }]
  time_step := 0

/-- An intended-position map sending both agents of a two-agent roster
onto the tile `(0,0)`. -/
def intendedBoth00 : Nat → Pos := fun _ => ⟨0, 0⟩

/-- A healthy two-agent state: agent 0 holds the ball at `(0,0)`,
agent 1 stands at `(1,0)`. -/
def stateBall0 : SoccerState where
  agent_list :=
    [{ pos := ⟨0, 0⟩, ball := true, mode := none,
       action := some Action.STAND },
     { pos := ⟨1, 0⟩, ball := false, mode := some Mode.OFFENSIVE,
       action := some Action.STAND }]
  time_step := 100

/-- An intended map in which agent 0 walks into agent 1's tile `(1,0)`
and agent 1 stays there. -/
def intendedClash : Nat → Pos := fun i => if i = 0 then ⟨1, 0⟩ else ⟨1, 0⟩

/-- An overlap-free intended map for the two agents of `stateBall0`. -/
def intendedSeparate : Nat → Pos := fun i => if i = 0 then ⟨0, 0⟩ else ⟨1, 0⟩

/-- A three-agent state in which only agent 2 holds the ball. -/
def stateThird : SoccerState where
  agent_list :=
    [{ pos := ⟨0, 0⟩, ball := false, mode := none, action := none },
     { pos := ⟨1, 0⟩, ball := false, mode := none, action := none },
     { pos := ⟨2, 0⟩, ball := true, mode := none, action := none }]
  time_step := 0

/-- A two-agent state in which nobody holds the ball. -/
def stateNoBall : SoccerState where
  agent_list :=
    [{ pos := ⟨0, 0⟩, ball := false, mode := none, action := none },
     { pos := ⟨2, 0⟩, ball := false, mode := none, action := none }]
  time_step := 0

/-- Deterministic step draws: default action `MOVE_RIGHT`, shuffle in
source order, ball pick 0. -/
def stepRand0 : StepRand where
  defAct := fun _ => Action.MOVE_RIGHT
  shuffleAct := fun _ => actions
  ballPick := 0

/-- The state `take_action` produces from `stateBall0` (already terminal
with `time_step = 100`) under `stepRand0` and a player `STAND`: the
computer walks right and the step counter grows to 101. -/
def stateBall0After : SoccerState where
  agent_list :=
    [{ pos := ⟨0, 0⟩, ball := true, mode := none,
       action := some Action.STAND },
     { pos := ⟨2, 0⟩, ball := false, mode := some Mode.OFFENSIVE,
       action := some Action.MOVE_RIGHT }]
  time_step := 101

/-! ## Generic helper lemmas -/

theorem except_bind_ok {α β : Type} {x : Except Err α} {f : α → Except Err β}
    {b : β} (h : (x >>= f) = Except.ok b) :
    ∃ a, x = Except.ok a ∧ f a = Except.ok b := by
  cases x with
  | error e => simp [Bind.bind, Except.bind] at h
  | ok a => exact ⟨a, rfl, h⟩

theorem except_ok_ne_error {α : Type} {a : α} {e : Err} :
    (Except.ok a : Except Err α) ≠ Except.error e := by
  intro h
  cases h

theorem list_getD_eq_getElem {α : Type} (l : List α) (i : Nat) (d : α)
    (h : i < l.length) : l.getD i d = l[i] := by
  rw [List.getD_eq_getElem?_getD, List.getElem?_eq_getElem h]
  rfl

theorem list_getD_eq_default {α : Type} (l : List α) (i : Nat) (d : α)
    (h : ¬ i < l.length) : l.getD i d = d := by
  rw [List.getD_eq_getElem?_getD, List.getElem?_eq_none (by omega)]
  rfl

theorem list_set_getD_self {α : Type} (l : List α) (i : Nat) (d : α) :
    l.set i (l.getD i d) = l := by
  by_cases h : i < l.length
  · rw [list_getD_eq_getElem l i d h]
    apply List.ext_getElem?
    intro j
    by_cases hj : j = i
    · subst hj
      rw [List.getElem?_set_eq_of_lt _ h, List.getElem?_eq_getElem h]
    · rw [List.getElem?_set_ne (fun he => hj he.symm)]
  · rw [List.set_eq_of_length_le (by omega)]

theorem list_getD_set_self {α : Type} (l : List α) (i : Nat) (x d : α)
    (h : i < l.length) : (l.set i x).getD i d = x := by
  rw [List.getD_eq_getElem?_getD, List.getElem?_set_eq_of_lt x h]
  rfl

theorem list_getD_set_ne {α : Type} (l : List α) (i j : Nat) (x d : α)
    (h : i ≠ j) : (l.set i x).getD j d = l.getD j d := by
  rw [List.getD_eq_getElem?_getD, List.getElem?_set_ne h,
    List.getD_eq_getElem?_getD]

theorem list_countP_set_add {α : Type} (p : α → Bool) :
    ∀ (l : List α) (i : Nat) (x d : α), i < l.length →
    (l.set i x).countP p + (if p (l.getD i d) then 1 else 0) =
      l.countP p + (if p x then 1 else 0)
  | [], i, x, d, h => by simp at h
  | a :: l, 0, x, d, h => by
    simp only [List.set, List.getD, List.countP_cons]
    by_cases hx : p x <;> by_cases ha : p a <;> simp [hx, ha]
  | a :: l, i + 1, x, d, h => by
    simp only [List.set, List.getD_cons_succ, List.countP_cons]
    have ih := list_countP_set_add p l i x d (by simpa using h)
    simp only [List.getD_eq_getElem?_getD] at ih ⊢
    by_cases ha : p a <;> simp [ha] <;> omega

theorem list_one_true_le_countP (l : List Bool) (b : Nat) (hb : b < l.length)
    (hxb : l.getD b false = true) : 1 ≤ l.countP (fun x => x) := by
  apply List.countP_pos_iff.mpr
  refine ⟨l[b], List.getElem_mem hb, ?_⟩
  rw [← list_getD_eq_getElem l b false hb]
  exact hxb

theorem list_two_true_le_countP :
    ∀ (l : List Bool) (a b : Nat), a < l.length → b < l.length → a ≠ b →
    l.getD a false = true → l.getD b false = true →
    2 ≤ l.countP (fun x => x)
  | [], a, b, ha, _, _, _, _ => by simp at ha
  | x :: l, 0, 0, _, _, hab, _, _ => absurd rfl hab
  | x :: l, 0, b + 1, ha, hb, hab, hxa, hxb => by
    simp only [List.getD_cons_zero] at hxa
    simp only [List.getD_cons_succ] at hxb
    have h1 := list_one_true_le_countP l b (by simpa using hb) hxb
    rw [List.countP_cons, if_pos (by simpa using hxa)]
    omega
  | x :: l, a + 1, 0, ha, hb, hab, hxa, hxb => by
    simp only [List.getD_cons_zero] at hxb
    simp only [List.getD_cons_succ] at hxa
    have h1 := list_one_true_le_countP l a (by simpa using ha) hxa
    rw [List.countP_cons, if_pos (by simpa using hxb)]
    omega
  | x :: l, a + 1, b + 1, ha, hb, hab, hxa, hxb => by
    have ih := list_two_true_le_countP l a b (by simpa using ha)
      (by simpa using hb) (by omega) (by simpa using hxa) (by simpa using hxb)
    simp only [List.countP_cons]
    omega

theorem list_countP_lt {α : Type} (p q : α → Bool) :
    ∀ (l : List α), (∀ x ∈ l, p x = true → q x = true) →
    (∃ x ∈ l, q x = true ∧ p x = false) → l.countP p < l.countP q
  | [], _, hex => by simp at hex
  | a :: l, hall, hex => by
    simp only [List.countP_cons]
    rcases hex with ⟨x, hx, hqx, hpx⟩
    rcases List.mem_cons.mp hx with rfl | hxl
    · have hle : l.countP p ≤ l.countP q :=
        List.countP_mono_left (fun y hy => by
          intro hpy
          exact hall y (List.mem_cons_of_mem _ hy) hpy)
      rw [if_neg (by simp [hpx]), if_pos hqx]
      omega
    · have hlt := list_countP_lt p q l
        (fun y hy => hall y (List.mem_cons_of_mem _ hy)) ⟨x, hxl, hqx, hpx⟩
      have hif : (if p a = true then 1 else 0) ≤
          (if q a = true then 1 else 0) := by
        by_cases hpa : p a = true
        · rw [if_pos hpa, if_pos (hall a (List.mem_cons_self a l) hpa)]
        · rw [if_neg hpa]
          omega
      omega

/-! ## State accessor lemmas -/

theorem posList_length (s : SoccerState) :
    (posList s).length = s.agent_list.length := by
  simp [posList]

theorem ballFlags_length (s : SoccerState) :
    (ballFlags s).length = s.agent_list.length := by
  simp [ballFlags]

theorem get_agent_pos_eq_getD (s : SoccerState) (i : Nat) :
    s.get_agent_pos i = (posList s).getD i ⟨0, 0⟩ := by
  by_cases h : i < s.agent_list.length
  · rw [SoccerState.get_agent_pos, list_getD_eq_getElem _ _ _ h,
      list_getD_eq_getElem _ _ _ (by simpa [posList] using h)]
    simp [posList]
  · rw [SoccerState.get_agent_pos, list_getD_eq_default _ _ _ h,
      list_getD_eq_default _ _ _ (by simpa [posList] using h)]
    rfl

theorem get_agent_ball_eq_getD (s : SoccerState) (i : Nat) :
    s.get_agent_ball i = (ballFlags s).getD i false := by
  by_cases h : i < s.agent_list.length
  · rw [SoccerState.get_agent_ball, list_getD_eq_getElem _ _ _ h,
      list_getD_eq_getElem _ _ _ (by simpa [ballFlags] using h)]
    simp [ballFlags]
  · rw [SoccerState.get_agent_ball, list_getD_eq_default _ _ _ h,
      list_getD_eq_default _ _ _ (by simpa [ballFlags] using h)]
    rfl

theorem get_agent_pos_congr {s s' : SoccerState}
    (h : posList s = posList s') (i : Nat) :
    s.get_agent_pos i = s'.get_agent_pos i := by
  rw [get_agent_pos_eq_getD, get_agent_pos_eq_getD, h]

theorem get_agent_ball_congr {s s' : SoccerState}
    (h : ballFlags s = ballFlags s') (i : Nat) :
    s.get_agent_ball i = s'.get_agent_ball i := by
  rw [get_agent_ball_eq_getD, get_agent_ball_eq_getD, h]

theorem posList_set_agent_pos (s : SoccerState) (i : Nat) (p : Pos) :
    posList (s.set_agent_pos i p) = (posList s).set i p := by
  simp [posList, SoccerState.set_agent_pos, List.map_set]

theorem posList_set_agent_ball (s : SoccerState) (i : Nat) (b : Bool) :
    posList (s.set_agent_ball i b) = posList s := by
  simp only [posList, SoccerState.set_agent_ball, List.map_set]
  have : (s.agent_list.getD i defaultAgent).pos =
      (s.agent_list.map (fun e => e.pos)).getD i ⟨0, 0⟩ :=
    get_agent_pos_eq_getD s i
  rw [this, list_set_getD_self]

theorem posList_set_agent_mode (s : SoccerState) (i : Nat) (m : Option Mode) :
    posList (s.set_agent_mode i m) = posList s := by
  simp only [posList, SoccerState.set_agent_mode, List.map_set]
  have : (s.agent_list.getD i defaultAgent).pos =
      (s.agent_list.map (fun e => e.pos)).getD i ⟨0, 0⟩ :=
    get_agent_pos_eq_getD s i
  rw [this, list_set_getD_self]

theorem posList_set_agent_action (s : SoccerState) (i : Nat)
    (a : Option Action) :
    posList (s.set_agent_action i a) = posList s := by
  simp only [posList, SoccerState.set_agent_action, List.map_set]
  have : (s.agent_list.getD i defaultAgent).pos =
      (s.agent_list.map (fun e => e.pos)).getD i ⟨0, 0⟩ :=
    get_agent_pos_eq_getD s i
  rw [this, list_set_getD_self]

theorem ballFlags_set_agent_pos (s : SoccerState) (i : Nat) (p : Pos) :
    ballFlags (s.set_agent_pos i p) = ballFlags s := by
  simp only [ballFlags, SoccerState.set_agent_pos, List.map_set]
  have : (s.agent_list.getD i defaultAgent).ball =
      (s.agent_list.map (fun e => e.ball)).getD i false :=
    get_agent_ball_eq_getD s i
  rw [this, list_set_getD_self]

theorem ballFlags_set_agent_action (s : SoccerState) (i : Nat)
    (a : Option Action) :
    ballFlags (s.set_agent_action i a) = ballFlags s := by
  simp only [ballFlags, SoccerState.set_agent_action, List.map_set]
  have : (s.agent_list.getD i defaultAgent).ball =
      (s.agent_list.map (fun e => e.ball)).getD i false :=
    get_agent_ball_eq_getD s i
  rw [this, list_set_getD_self]

theorem ballFlags_set_agent_ball (s : SoccerState) (i : Nat) (b : Bool) :
    ballFlags (s.set_agent_ball i b) = (ballFlags s).set i b := by
  simp [ballFlags, SoccerState.set_agent_ball, List.map_set]

theorem time_step_set_agent_pos (s : SoccerState) (i : Nat) (p : Pos) :
    (s.set_agent_pos i p).time_step = s.time_step := rfl

theorem time_step_set_agent_ball (s : SoccerState) (i : Nat) (b : Bool) :
    (s.set_agent_ball i b).time_step = s.time_step := rfl

theorem time_step_set_agent_action (s : SoccerState) (i : Nat)
    (a : Option Action) :
    (s.set_agent_action i a).time_step = s.time_step := rfl

theorem ballCount_eq_countP_flags (s : SoccerState) :
    ballCount s = (ballFlags s).countP (fun x => x) := by
  simp only [ballCount, ballFlags, List.countP_map]
  rfl

theorem posList_switch_ball (s : SoccerState) (a b : Nat) :
    posList (s.switch_ball a b) = posList s := by
  simp [SoccerState.switch_ball, posList_set_agent_ball]

theorem time_step_switch_ball (s : SoccerState) (a b : Nat) :
    (s.switch_ball a b).time_step = s.time_step := rfl

theorem ballFlags_switch_ball (s : SoccerState) (a b : Nat) :
    ballFlags (s.switch_ball a b) =
      ((ballFlags s).set a (!(ballFlags s).getD a false)).set b
        ((ballFlags s).getD a false) := by
  simp only [SoccerState.switch_ball]
  rw [ballFlags_set_agent_ball, ballFlags_set_agent_ball,
    get_agent_ball_eq_getD]

theorem length_switch_ball (s : SoccerState) (a b : Nat) :
    (s.switch_ball a b).agent_list.length = s.agent_list.length := by
  have := posList_switch_ball s a b
  rw [← posList_length, ← posList_length, this]

theorem ballCount_switch_ball_one (s : SoccerState) (a b : Nat)
    (ha : a < s.agent_list.length) (hb : b < s.agent_list.length)
    (hba : s.get_agent_ball a = true) (hbb : s.get_agent_ball b = false)
    (h1 : ballCount s = 1) : ballCount (s.switch_ball a b) = 1 := by
  have hab : a ≠ b := fun he => by rw [he, hbb] at hba; cases hba
  have hFa : (ballFlags s).getD a false = true := by
    rw [← get_agent_ball_eq_getD]; exact hba
  have hFb : (ballFlags s).getD b false = false := by
    rw [← get_agent_ball_eq_getD]; exact hbb
  have hlen : a < (ballFlags s).length := by rw [ballFlags_length]; exact ha
  have hlenb : b < (ballFlags s).length := by rw [ballFlags_length]; exact hb
  rw [ballCount_eq_countP_flags] at h1 ⊢
  rw [ballFlags_switch_ball, hFa]
  have h1set := list_countP_set_add (fun x => x) (ballFlags s) a false false
    hlen
  rw [hFa] at h1set
  simp only [] at h1set
  rw [if_pos trivial, if_neg (by exact Bool.false_ne_true)] at h1set
  have hc1 : ((ballFlags s).set a false).countP (fun x => x) = 0 := by omega
  have hlenb2 : b < ((ballFlags s).set a false).length := by
    rw [List.length_set]; exact hlenb
  have h2set := list_countP_set_add (fun x => x) ((ballFlags s).set a false)
    b true false hlenb2
  have hkeep : ((ballFlags s).set a false).getD b false = false := by
    rw [list_getD_set_ne _ _ _ _ _ hab]; exact hFb
  rw [hkeep] at h2set
  simp only [] at h2set
  rw [if_neg (by exact Bool.false_ne_true), if_pos trivial] at h2set
  show (((ballFlags s).set a (!true)).set b true).countP (fun x => x) = 1
  rw [show (!true) = false from rfl]
  omega

/-! ## Claim C5: the winning predicate -/

/-- C5: for every agent index `i`, `is_agent_win(i)` returns true if and
only if agent `i` currently holds the ball and agent `i`'s position
lies in the opposing team's goal set (the goal tiles in which `i`'s
team scores, which lie on the opposing team's side). -/
theorem c5_is_agent_win_iff (opts : SoccerEnvironmentOptions)
    (md : SoccerMapData) (s : SoccerState) (i : Nat) :
    s.is_agent_win opts md i = true ↔
      (s.get_agent_ball i = true ∧
        s.get_agent_pos i ∈ opposing_goal_area md (get_team_name opts i)) := by
  unfold SoccerState.is_agent_win opposing_goal_area
  by_cases h : s.get_agent_ball i = true
  · simp [h]
  · simp only [Bool.not_eq_true] at h
    simp [h]

/-! ## Claim C8: team-size validation -/

/-- C8: constructing `SoccerEnvironmentOptions` succeeds if and only if
the supplied `team_size` is `1` or `2`; for every other integer it
fails with `ValueError` (the source's realization of
`InvalidArgument`). -/
theorem c8_team_size_validation (team_size : Int) :
    ((∃ o, SoccerEnvironmentOptions.init team_size = Except.ok o) ↔
      (team_size = 1 ∨ team_size = 2)) ∧
    ((SoccerEnvironmentOptions.init team_size =
        Except.error Err.ValueError) ↔ ¬ (team_size = 1 ∨ team_size = 2)) := by
  unfold SoccerEnvironmentOptions.init
  by_cases h : team_size ≥ 1 ∧ team_size ≤ 2
  · rw [if_neg (by simpa using h)]
    constructor
    · constructor
      · intro _
        omega
      · intro _
        exact ⟨_, rfl⟩
    · constructor
      · intro he
        exact absurd he except_ok_ne_error
      · intro hne
        exact absurd (by omega) hne
  · rw [if_pos h]
    constructor
    · constructor
      · intro ⟨o, ho⟩
        exact absurd ho.symm except_ok_ne_error
      · intro hor
        exact absurd (by omega) h
    · constructor
      · intro _
        omega
      · intro _
        rfl

/-! ## Claim C9: switch_ball on two non-holders -/

/-- C9: calling `switch_ball(a, b)` in a state where neither `a` nor
`b` holds the ball is not a no-op: afterwards `a`'s ball flag is true
and `b`'s is false, every other agent keeps its flag, and if some third
agent holds the ball the roster now counts two balls. -/
theorem c9_switch_ball_fabricates (s : SoccerState) (a b : Nat)
    (ha : a < s.agent_list.length) (hb : b < s.agent_list.length)
    (hab : a ≠ b) (hza : s.get_agent_ball a = false)
    (hzb : s.get_agent_ball b = false) :
    (s.switch_ball a b).get_agent_ball a = true ∧
    (s.switch_ball a b).get_agent_ball b = false ∧
    (∀ c, c ≠ a → c ≠ b →
      (s.switch_ball a b).get_agent_ball c = s.get_agent_ball c) ∧
    (∀ c, c < s.agent_list.length → c ≠ a → c ≠ b →
      s.get_agent_ball c = true → 2 ≤ ballCount (s.switch_ball a b)) := by
  have hFa : (ballFlags s).getD a false = false := by
    rw [← get_agent_ball_eq_getD]; exact hza
  have hFb : (ballFlags s).getD b false = false := by
    rw [← get_agent_ball_eq_getD]; exact hzb
  have hlena : a < (ballFlags s).length := by rw [ballFlags_length]; exact ha
  have hlenb : b < (ballFlags s).length := by rw [ballFlags_length]; exact hb
  have hF : ballFlags (s.switch_ball a b) =
      ((ballFlags s).set a true).set b false := by
    rw [ballFlags_switch_ball, hFa]
    rfl
  refine ⟨?_, ?_, ?_, ?_⟩
  · rw [get_agent_ball_eq_getD, hF, list_getD_set_ne _ _ _ _ _ (Ne.symm hab),
      list_getD_set_self _ _ _ _ hlena]
  · rw [get_agent_ball_eq_getD, hF,
      list_getD_set_self _ _ _ _ (by rw [List.length_set]; exact hlenb)]
  · intro c hca hcb
    rw [get_agent_ball_eq_getD, get_agent_ball_eq_getD, hF,
      list_getD_set_ne _ _ _ _ _ (Ne.symm hcb),
      list_getD_set_ne _ _ _ _ _ (Ne.symm hca)]
  · intro c hc hca hcb hcball
    rw [ballCount_eq_countP_flags, hF]
    apply list_two_true_le_countP _ a c
    · rw [List.length_set, List.length_set]; exact hlena
    · rw [List.length_set, List.length_set, ballFlags_length]; exact hc
    · exact fun he => hca he.symm
    · rw [list_getD_set_ne _ _ _ _ _ (Ne.symm hab),
        list_getD_set_self _ _ _ _ hlena]
    · rw [list_getD_set_ne _ _ _ _ _ (Ne.symm hcb),
        list_getD_set_ne _ _ _ _ _ (Ne.symm hca), ← get_agent_ball_eq_getD]
      exact hcball

/-- Witness for C9 at a concrete three-agent state in which only agent 2
holds the ball: switching between the two non-holders 0 and 1 gives
agent 0 a fabricated second ball. -/
theorem c9_witness :
    (stateThird.switch_ball 0 1).get_agent_ball 0 = true ∧
    2 ≤ ballCount (stateThird.switch_ball 0 1) := by
  have h := c9_switch_ball_fabricates stateThird 0 1 (by decide) (by decide)
    (by decide) (by decide) (by decide)
  exact ⟨h.1, h.2.2.2 2 (by decide) (by decide) (by decide) (by decide)⟩

theorem list_find?_unique {α : Type} (p : α → Bool) :
    ∀ (l : List α) (r : α), r ∈ l → p r = true →
    (∀ x ∈ l, x ≠ r → p x = false) → l.find? p = some r
  | [], r, hr, _, _ => absurd hr (List.not_mem_nil r)
  | x :: l, r, hr, hpr, huniq => by
    by_cases hx : x = r
    · subst hx
      rw [List.find?_cons_of_pos _ hpr]
    · have hpx : p x = false := huniq x (List.mem_cons_self x l) hx
      rw [List.find?_cons_of_neg _ (by simp [hpx])]
      have hrl : r ∈ l := by
        rcases List.mem_cons.mp hr with rfl | h
        · exact absurd rfl hx
        · exact h
      exact list_find?_unique p l r hrl hpr
        (fun y hy => huniq y (List.mem_cons_of_mem _ hy))

/-! ## Claim C7: ball-holder lookup -/

/-- C7 counterexample: in a state where no agent holds the ball,
`get_ball_possession` does not fail — it returns the value `None`
(modelled as `none`), which the caller may then subscript and crash
elsewhere.  The claim that it "fails with InvariantViolation rather
than returning a value" is therefore false on the code. -/
theorem c7_counterexample :
    stateNoBall.get_ball_possession opts1 = none := by decide

/-- C7 (amended): `get_ball_possession` returns the
`(team name, team-local index, global index)` triple of the unique ball
holder when one exists, and returns `None` — it does not raise — in
every state where no agent holds the ball. -/
theorem c7_get_ball_possession (opts : SoccerEnvironmentOptions)
    (s : SoccerState) :
    ((∀ r ∈ agent_enum opts, s.get_agent_ball r.agent_index = false) →
      s.get_ball_possession opts = none) ∧
    (∀ r ∈ agent_enum opts, s.get_agent_ball r.agent_index = true →
      (∀ r2 ∈ agent_enum opts, r2 ≠ r →
        s.get_agent_ball r2.agent_index = false) →
      s.get_ball_possession opts = some r) := by
  constructor
  · intro hall
    unfold SoccerState.get_ball_possession
    rw [List.find?_eq_none]
    intro x hx
    simp [hall x hx]
  · intro r hr hball huniq
    unfold SoccerState.get_ball_possession
    exact list_find?_unique _ (agent_enum opts) r hr hball
      (fun x hx hxr => huniq x hx hxr)

/-- Witness for C7: on the corridor reset state the unique holder is
reported as `(PLAYER, 0, 0)`. -/
theorem c7_witness :
    stateReset0.get_ball_possession opts1 =
      some ⟨Team.PLAYER, 0, 0⟩ := by
  exact (c7_get_ball_possession opts1 stateReset0).2 ⟨Team.PLAYER, 0, 0⟩
    (by decide) (by decide) (by decide)

/-! ## Accounting lemmas for the overlap loop -/

theorem update_ball_possession_ok_cases {s : SoccerState} {pick : Nat}
    {l : List Nat} {s2 : SoccerState} {sw : Bool}
    (h : update_ball_possession s pick l = Except.ok (s2, sw)) :
    (s2 = s ∧ sw = false) ∨
    (∃ a b, s2 = s.switch_ball a b ∧ sw = true) := by
  simp only [update_ball_possession] at h
  split at h
  · left
    injection h with h1
    injection h1 with h2 h3
    exact ⟨h2.symm, h3.symm⟩
  · split at h
    · exact absurd h (by intro hc; cases hc)
    · right
      injection h with h1
      injection h1 with h2 h3
      exact ⟨_, _, h2.symm, h3.symm⟩

theorem reset_fold_spec (s2 : SoccerState) :
    ∀ (m : List Nat) (f : Nat → Pos) (j : Nat),
      (m.foldl (fun f agent_index =>
        updFn f agent_index (s2.get_agent_pos agent_index)) f) j =
        if j ∈ m then s2.get_agent_pos j else f j
  | [], f, j => by simp
  | i :: m, f, j => by
    rw [List.foldl_cons, reset_fold_spec s2 m _ j]
    by_cases hjm : j ∈ m
    · rw [if_pos hjm, if_pos (List.mem_cons_of_mem _ hjm)]
    · rw [if_neg hjm]
      by_cases hji : j = i
      · subst hji
        rw [if_pos (List.mem_cons_self _ _)]
        simp [updFn]
      · have hnc : j ∉ i :: m := by
          intro hc
          rcases List.mem_cons.mp hc with he | hm2
          · exact hji he
          · exact hjm hm2
        rw [if_neg hnc]
        simp [updFn, hji]

/-- Full characterization of the processing of one group: the state can
change only through at most one `switch_ball` (and only before
`has_switched` is set), a group of two or more claimants rolls all its
members back to their current positions and raises
`detecting_overlap`, and a singleton group changes nothing. -/
theorem overlap_group_step_spec (md : SoccerMapData) (pick : Nat)
    (st : SoccerState × (Nat → Pos) × Bool × Bool) (g : Pos × List Nat)
    (st1 : SoccerState × (Nat → Pos) × Bool × Bool)
    (h : overlap_group_step md pick st g = Except.ok st1) :
    posList st1.1 = posList st.1 ∧
    st1.1.time_step = st.1.time_step ∧
    (st.2.2.1 = true → st1.1 = st.1 ∧ st1.2.2.1 = true) ∧
    (st.2.2.1 = false → (st1.1 = st.1 ∧ st1.2.2.1 = false) ∨
      (∃ a b, st1.1 = st.1.switch_ball a b ∧ st1.2.2.1 = true)) ∧
    (st1.2.2.2 = true ↔ (st.2.2.2 = true ∨ 1 < g.2.length)) ∧
    (1 < g.2.length →
      ∀ j, st1.2.1 j = if j ∈ g.2 then st.1.get_agent_pos j
        else st.2.1 j) ∧
    (¬ 1 < g.2.length → st1 = st) := by
  obtain ⟨s1, intended1, hs1, det1⟩ := st
  by_cases hg : g.2.length > 1
  · simp only [overlap_group_step, if_pos hg] at h
    by_cases hhs : hs1 = true
    · subst hhs
      rw [if_neg (by simp)] at h
      simp only [bind, Except.bind] at h
      injection h with h1
      subst h1
      exact ⟨rfl, rfl, fun _ => ⟨rfl, rfl⟩, fun hf => absurd hf (by simp),
        by simp [hg], fun _ j => reset_fold_spec s1 g.2 intended1 j,
        fun hng => absurd hg hng⟩
    · have hhs' : hs1 = false := by
        cases hs1
        · rfl
        · exact absurd rfl hhs
      subst hhs'
      rw [if_pos (by simp)] at h
      obtain ⟨pu, hub, hcont⟩ := except_bind_ok h
      obtain ⟨s2, sw⟩ := pu
      simp only [bind, Except.bind] at hcont
      injection hcont with h1
      subst h1
      rcases update_ball_possession_ok_cases hub with ⟨he, hsw⟩ |
          ⟨a, b, he, hsw⟩
      · subst he
        subst hsw
        exact ⟨rfl, rfl, fun ht => absurd ht (by simp),
          fun _ => Or.inl ⟨rfl, rfl⟩, by simp [hg],
          fun _ j => reset_fold_spec _ g.2 intended1 j,
          fun hng => absurd hg hng⟩
      · subst he
        subst hsw
        refine ⟨posList_switch_ball s1 a b, time_step_switch_ball s1 a b,
          fun ht => absurd ht (by simp),
          fun _ => Or.inr ⟨a, b, rfl, by simp⟩,
          by simp [hg], fun _ j => ?_, fun hng => absurd hg hng⟩
        have hval : (g.2.foldl (fun f agent_index =>
            updFn f agent_index
              ((s1.switch_ball a b).get_agent_pos agent_index))
            intended1) j =
            if j ∈ g.2 then s1.get_agent_pos j else intended1 j := by
          rw [reset_fold_spec]
          by_cases hjm : j ∈ g.2
          · rw [if_pos hjm, if_pos hjm]
            exact get_agent_pos_congr (posList_switch_ball s1 a b) j
          · rw [if_neg hjm, if_neg hjm]
        exact hval
  · simp only [overlap_group_step, if_neg hg] at h
    injection h with h1
    subst h1
    refine ⟨rfl, rfl, fun ht => ⟨rfl, ht⟩, fun hf => Or.inl ⟨rfl, hf⟩,
      by simp [hg], fun hgt => absurd hgt hg, fun _ => rfl⟩

/-- Characterization of a whole pass over the group list. -/
theorem overlap_foldlM_spec (md : SoccerMapData) (pick : Nat) :
    ∀ (gs : List (Pos × List Nat))
      (st st' : SoccerState × (Nat → Pos) × Bool × Bool),
      gs.foldlM (overlap_group_step md pick) st = Except.ok st' →
      posList st'.1 = posList st.1 ∧
      st'.1.time_step = st.1.time_step ∧
      (st.2.2.1 = true → st'.1 = st.1 ∧ st'.2.2.1 = true) ∧
      (st.2.2.1 = false → (st'.1 = st.1 ∧ st'.2.2.1 = false) ∨
        (∃ a b, st'.1 = st.1.switch_ball a b ∧ st'.2.2.1 = true)) ∧
      (st'.2.2.2 = true ↔ (st.2.2.2 = true ∨ ∃ g ∈ gs, 1 < g.2.length)) ∧
      (∀ j, ((∃ g ∈ gs, 1 < g.2.length ∧ j ∈ g.2) →
          st'.2.1 j = st.1.get_agent_pos j) ∧
        ((¬ ∃ g ∈ gs, 1 < g.2.length ∧ j ∈ g.2) → st'.2.1 j = st.2.1 j))
  | [], st, st', h => by
    simp only [List.foldlM_nil] at h
    injection h with h1
    subst h1
    refine ⟨rfl, rfl, fun ht => ⟨rfl, ht⟩, fun hf => Or.inl ⟨rfl, hf⟩,
      by simp, fun j => ⟨fun hex => ?_, fun _ => rfl⟩⟩
    obtain ⟨g, hg, _⟩ := hex
    exact absurd hg (List.not_mem_nil g)
  | g :: gs, st, st', h => by
    rw [List.foldlM_cons] at h
    obtain ⟨st1, hstep, hrest⟩ := except_bind_ok h
    obtain ⟨hps1, hts1, haccT, haccF, hdet1, hres1, hsing1⟩ :=
      overlap_group_step_spec md pick st g st1 hstep
    obtain ⟨hps2, hts2, haccT2, haccF2, hdet2, hres2⟩ :=
      overlap_foldlM_spec md pick gs st1 st' hrest
    refine ⟨hps2.trans hps1, hts2.trans hts1, ?_, ?_, ?_, ?_⟩
    · intro ht
      obtain ⟨he1, hs1t⟩ := haccT ht
      obtain ⟨he2, hs2t⟩ := haccT2 hs1t
      exact ⟨he2.trans he1, hs2t⟩
    · intro hf
      rcases haccF hf with ⟨he1, hs1f⟩ | ⟨a, b, he1, hs1t⟩
      · rcases haccF2 hs1f with ⟨he2, hs2f⟩ | ⟨a, b, he2, hs2t⟩
        · exact Or.inl ⟨he2.trans he1, hs2f⟩
        · exact Or.inr ⟨a, b, by rw [he2, he1], hs2t⟩
      · obtain ⟨he2, hs2t⟩ := haccT2 hs1t
        exact Or.inr ⟨a, b, by rw [he2, he1], hs2t⟩
    · rw [hdet2, hdet1]
      constructor
      · intro hor
        rcases hor with hor | ⟨g2, hg2, hlen2⟩
        · rcases hor with hd | hlen
          · exact Or.inl hd
          · exact Or.inr ⟨g, List.mem_cons_self _ _, hlen⟩
        · exact Or.inr ⟨g2, List.mem_cons_of_mem _ hg2, hlen2⟩
      · intro hor
        rcases hor with hd | ⟨g2, hg2, hlen2⟩
        · exact Or.inl (Or.inl hd)
        · rcases List.mem_cons.mp hg2 with he | hm
          · exact Or.inl (Or.inr (he ▸ hlen2))
          · exact Or.inr ⟨g2, hm, hlen2⟩
    · intro j
      constructor
      · intro hex
        by_cases hrestc : ∃ g2 ∈ gs, 1 < g2.2.length ∧ j ∈ g2.2
        · rw [(hres2 j).1 hrestc]
          exact get_agent_pos_congr hps1 j
        · rw [(hres2 j).2 hrestc]
          obtain ⟨g2, hg2, hlen2, hj2⟩ := hex
          rcases List.mem_cons.mp hg2 with he | hm
          · subst he
            rw [(hres1 hlen2) j, if_pos hj2]
          · exact absurd ⟨g2, hm, hlen2, hj2⟩ hrestc
      · intro hnex
        have hnr : ¬ ∃ g2 ∈ gs, 1 < g2.2.length ∧ j ∈ g2.2 := by
          intro ⟨g2, hg2, hlen2, hj2⟩
          exact hnex ⟨g2, List.mem_cons_of_mem _ hg2, hlen2, hj2⟩
        rw [(hres2 j).2 hnr]
        by_cases hlen : 1 < g.2.length
        · have hjn : j ∉ g.2 := by
            intro hj
            exact hnex ⟨g, List.mem_cons_self _ _, hlen, hj⟩
          rw [(hres1 hlen) j, if_neg hjn]
        · rw [hsing1 hlen]

/-- Full characterization of one iteration of the overlap loop. -/
theorem overlap_iteration_spec {md : SoccerMapData} {n pick : Nat}
    {s : SoccerState} {intended : Nat → Pos} {hs : Bool}
    {s' : SoccerState} {intended' : Nat → Pos} {hs' det : Bool}
    (h : overlap_iteration md n pick s intended hs =
      Except.ok (s', intended', hs', det)) :
    posList s' = posList s ∧
    s'.time_step = s.time_step ∧
    (hs = true → s' = s ∧ hs' = true) ∧
    (hs = false → (s' = s ∧ hs' = false) ∨
      (∃ a b, s' = s.switch_ball a b ∧ hs' = true)) ∧
    (det = true ↔ ∃ g ∈ get_overlapping_pos_to_agent md s n intended,
      1 < g.2.length) ∧
    (∀ j, ((∃ g ∈ get_overlapping_pos_to_agent md s n intended,
        1 < g.2.length ∧ j ∈ g.2) → intended' j = s.get_agent_pos j) ∧
      ((¬ ∃ g ∈ get_overlapping_pos_to_agent md s n intended,
        1 < g.2.length ∧ j ∈ g.2) → intended' j = intended j)) := by
  unfold overlap_iteration at h
  obtain ⟨h1, h2, h3, h4, h5, h6⟩ := overlap_foldlM_spec md pick
    (get_overlapping_pos_to_agent md s n intended)
    (s, intended, hs, false) (s', intended', hs', det) h
  refine ⟨h1, h2, h3, h4, ?_, h6⟩
  rw [h5]
  simp

/-- `has_switched`/state accounting for the whole `while` loop: against
a start with `has_switched = false`, the final state is the initial one
or the initial one after a single `switch_ball`. -/
theorem update_agent_pos_loop_acc {md : SoccerMapData} {n pick : Nat} :
    ∀ {fuel : Nat} {s : SoccerState} {intended : Nat → Pos} {hs : Bool}
      {s' : SoccerState} {intended' : Nat → Pos} {hs' : Bool},
      update_agent_pos_loop md n pick fuel s intended hs =
        Except.ok (s', intended', hs') →
      (hs = true → s' = s ∧ hs' = true) ∧
      (hs = false → (s' = s ∧ hs' = false) ∨
        (∃ a b, s' = s.switch_ball a b ∧ hs' = true)) := by
  intro fuel
  induction fuel with
  | zero =>
    intro s intended hs s' intended' hs' h
    exact absurd h (by intro hc; cases hc)
  | succ fuel ih =>
    intro s intended hs s' intended' hs' h
    unfold update_agent_pos_loop at h
    obtain ⟨p, hit, hrest⟩ := except_bind_ok h
    obtain ⟨s1, intended1, hs1, det⟩ := p
    simp only [] at hrest
    have hspec := overlap_iteration_spec hit
    have hacc := And.intro hspec.2.2.1 hspec.2.2.2.1
    by_cases hdet : det = true
    · rw [hdet] at hrest
      rw [if_pos rfl] at hrest
      have ihacc := ih hrest
      constructor
      · intro ht
        obtain ⟨he, hs1t⟩ := hacc.1 ht
        obtain ⟨he2, hs2t⟩ := ihacc.1 hs1t
        exact ⟨he2.trans he, hs2t⟩
      · intro hf
        rcases hacc.2 hf with ⟨he, hs1f⟩ | ⟨a, b, he, hs1t⟩
        · rcases ihacc.2 hs1f with ⟨he2, hs2f⟩ | ⟨a, b, he2, hs2t⟩
          · exact Or.inl ⟨he2.trans he, hs2f⟩
          · exact Or.inr ⟨a, b, by rw [he2, he], hs2t⟩
        · obtain ⟨he2, hs2t⟩ := ihacc.1 hs1t
          exact Or.inr ⟨a, b, by rw [he2, he], hs2t⟩
    · have hdet' : det = false := by
        cases det
        · rfl
        · exact absurd rfl hdet
      subst hdet'
      rw [if_neg (by simp)] at hrest
      injection hrest with h1
      injection h1 with h2 h3
      injection h3 with h4 h5
      subst h2 h4 h5
      exact hacc

/-! ## Commit, intended-position and enumeration lemmas -/

theorem commit_fold_spec (f : Nat → Pos) :
    ∀ (l : List Nat) (s : SoccerState),
      (l.foldl (fun s1 i => s1.set_agent_pos i (f i)) s).time_step =
        s.time_step ∧
      ballFlags (l.foldl (fun s1 i => s1.set_agent_pos i (f i)) s) =
        ballFlags s ∧
      (l.foldl (fun s1 i => s1.set_agent_pos i (f i)) s).agent_list.length =
        s.agent_list.length ∧
      (∀ j, j ∉ l →
        (posList (l.foldl (fun s1 i => s1.set_agent_pos i (f i)) s)).getD j
          ⟨0, 0⟩ = (posList s).getD j ⟨0, 0⟩) ∧
      (∀ j, j ∈ l → j < s.agent_list.length →
        (posList (l.foldl (fun s1 i => s1.set_agent_pos i (f i)) s)).getD j
          ⟨0, 0⟩ = f j)
  | [], s => by
    refine ⟨rfl, rfl, rfl, fun j _ => rfl, fun j hj _ => absurd hj ?_⟩
    exact List.not_mem_nil j
  | i :: l, s => by
    simp only [List.foldl_cons]
    obtain ⟨ht, hb, hl, hout, hin⟩ :=
      commit_fold_spec f l (s.set_agent_pos i (f i))
    have hlen : (s.set_agent_pos i (f i)).agent_list.length =
        s.agent_list.length := by
      rw [← posList_length, ← posList_length, posList_set_agent_pos,
        List.length_set]
    refine ⟨by rw [ht, time_step_set_agent_pos],
      by rw [hb, ballFlags_set_agent_pos], by rw [hl, hlen], ?_, ?_⟩
    · intro j hj
      have hji : j ≠ i := fun he => hj (he ▸ List.mem_cons_self i l)
      have hjl : j ∉ l := fun he => hj (List.mem_cons_of_mem _ he)
      rw [hout j hjl, posList_set_agent_pos,
        list_getD_set_ne _ _ _ _ _ (Ne.symm hji)]
    · intro j hj hjlen
      rcases List.mem_cons.mp hj with rfl | hjl
      · by_cases hjl2 : j ∈ l
        · exact hin j hjl2 (by rw [hlen]; exact hjlen)
        · rw [hout j hjl2, posList_set_agent_pos, list_getD_set_self]
          rw [posList_length]
          exact hjlen
      · exact hin j hjl (by rw [hlen]; exact hjlen)

theorem commit_positions_spec (n : Nat) (s : SoccerState) (f : Nat → Pos)
    (hn : n = s.agent_list.length) :
    (commit_positions n s f).time_step = s.time_step ∧
    ballFlags (commit_positions n s f) = ballFlags s ∧
    posList (commit_positions n s f) = (List.range n).map f := by
  obtain ⟨ht, hb, hl, _hout, hin⟩ := commit_fold_spec f (List.range n) s
  unfold commit_positions
  refine ⟨ht, hb, ?_⟩
  apply List.ext_getElem
  · rw [posList_length, hl, ← hn, List.length_map, List.length_range]
  · intro j h1 h2
    have hjn : j < n := by simpa using h2
    rw [← list_getD_eq_getElem _ _ ⟨0, 0⟩ h1,
      ← list_getD_eq_getElem _ _ ⟨0, 0⟩ h2]
    rw [hin j (by simpa using hjn) (by omega)]
    rw [List.getD_eq_getElem?_getD, List.getElem?_map, List.getElem?_range hjn]
    rfl

theorem updFn_spec (f : Nat → Pos) (i : Nat) (p : Pos) (j : Nat) :
    updFn f i p j = if j = i then p else f j := rfl

theorem intended_pos_aux_spec (opts : SoccerEnvironmentOptions)
    (md : SoccerMapData) (action : List Action) (r : StepRand) :
    ∀ (refs : List AgentRef) (s : SoccerState) (f : Nat → Pos)
      (s1 : SoccerState) (f1 : Nat → Pos),
      intended_pos_aux opts md action r refs s f = Except.ok (s1, f1) →
      posList s1 = posList s ∧ ballFlags s1 = ballFlags s ∧
      s1.time_step = s.time_step ∧
      (∀ j, j ∉ refs.map (fun ref => ref.agent_index) → f1 j = f j) ∧
      ((refs.map (fun ref => ref.agent_index)).Nodup →
        ∀ ref ∈ refs, f1 ref.agent_index ∈ md.walkable ∨
          f1 ref.agent_index = s.get_agent_pos ref.agent_index)
  | [], s, f, s1, f1, h => by
    simp only [intended_pos_aux] at h
    injection h with h1
    injection h1 with h2 h3
    subst h2 h3
    exact ⟨rfl, rfl, rfl, fun j _ => rfl, fun _ ref href => absurd href
      (List.not_mem_nil ref)⟩
  | ref :: rest, s, f, s1, f1, h => by
    obtain ⟨tn, tai, ai⟩ := ref
    have hcont : ∃ a, intended_pos_aux opts md action r rest
        (s.set_agent_action ai (some a))
        (if get_moved_pos (s.get_agent_pos ai) a ∈ md.walkable then
          updFn f ai (get_moved_pos (s.get_agent_pos ai) a)
        else updFn f ai (s.get_agent_pos ai)) = Except.ok (s1, f1) := by
      simp only [intended_pos_aux] at h
      cases tn with
      | PLAYER =>
        cases hga : action.get? tai with
        | none =>
          rw [hga] at h
          simp only [bind, Except.bind] at h
          simp at h
        | some a =>
          rw [hga] at h
          simp only [bind, Except.bind] at h
          exact ⟨a, h⟩
      | COMPUTER =>
        obtain ⟨a, _, h2⟩ := except_bind_ok h
        exact ⟨a, h2⟩
    obtain ⟨a, hrest⟩ := hcont
    obtain ⟨hpos, hball, htime, huntouched, hP⟩ :=
      intended_pos_aux_spec opts md action r rest
        (s.set_agent_action ai (some a)) _ s1 f1 hrest
    have hposs : posList s1 = posList s := by
      rw [hpos, posList_set_agent_action]
    have hballs : ballFlags s1 = ballFlags s := by
      rw [hball, ballFlags_set_agent_action]
    have htimes : s1.time_step = s.time_step := by
      rw [htime, time_step_set_agent_action]
    refine ⟨hposs, hballs, htimes, ?_, ?_⟩
    · intro j hj
      have hji : j ≠ ai := by
        intro he
        exact hj (by simp [he])
      have hjrest : j ∉ rest.map (fun ref2 => ref2.agent_index) := by
        intro he
        exact hj (by simp [he])
      rw [huntouched j hjrest]
      by_cases hw : get_moved_pos (s.get_agent_pos ai) a ∈ md.walkable
      · rw [if_pos hw, updFn_spec, if_neg hji]
      · rw [if_neg hw, updFn_spec, if_neg hji]
    · intro hnodup ref2 href2
      have hnodup2 : (rest.map (fun ref2 => ref2.agent_index)).Nodup := by
        simpa using hnodup.of_cons
      rcases List.mem_cons.mp href2 with rfl | hmem
      · have hnin : ai ∉ rest.map (fun ref3 => ref3.agent_index) := by
          have hc := hnodup
          simp only [List.map_cons] at hc
          exact (List.nodup_cons.mp hc).1
        rw [huntouched _ hnin]
        by_cases hw : get_moved_pos (s.get_agent_pos ai) a ∈ md.walkable
        · rw [if_pos hw, updFn_spec, if_pos rfl]
          exact Or.inl hw
        · rw [if_neg hw, updFn_spec, if_pos rfl]
          exact Or.inr rfl
      · rcases hP hnodup2 ref2 hmem with hw | he
        · exact Or.inl hw
        · refine Or.inr ?_
          rw [he]
          exact get_agent_pos_congr (posList_set_agent_action s _ _) _

theorem agent_enum_map_index (opts : SoccerEnvironmentOptions) :
    (agent_enum opts).map (fun ref => ref.agent_index) =
      List.range (2 * opts.team_size) := by
  simp only [agent_enum, team_names, List.flatMap_cons, List.flatMap_nil,
    List.map_append, List.map_map, List.append_nil]
  have h1 : ((fun (ref : AgentRef) => ref.agent_index) ∘
      fun k => (⟨Team.PLAYER, k, get_agent_index opts Team.PLAYER k⟩ :
        AgentRef)) = fun k => k := by
    funext k
    simp [Function.comp, get_agent_index]
  have h2 : ((fun (ref : AgentRef) => ref.agent_index) ∘
      fun k => (⟨Team.COMPUTER, k, get_agent_index opts Team.COMPUTER k⟩ :
        AgentRef)) = fun k => opts.team_size + k := by
    funext k
    simp [Function.comp, get_agent_index]
  rw [h1, h2, List.map_id', two_mul, List.range_add]

theorem agent_enum_length (opts : SoccerEnvironmentOptions) :
    (agent_enum opts).length = 2 * opts.team_size := by
  have := agent_enum_map_index opts
  have hlen := congrArg List.length this
  simpa using hlen

theorem agent_enum_index_lt (opts : SoccerEnvironmentOptions) {ref : AgentRef}
    (h : ref ∈ agent_enum opts) : ref.agent_index < 2 * opts.team_size := by
  have hmem : ref.agent_index ∈
      (agent_enum opts).map (fun ref => ref.agent_index) :=
    List.mem_map_of_mem _ h
  rw [agent_enum_map_index] at hmem
  simpa using hmem

theorem update_agent_pos_ok_time {opts : SoccerEnvironmentOptions}
    {md : SoccerMapData} {s : SoccerState} {intended : Nat → Pos}
    {pick : Nat} {s2 : SoccerState}
    (h : update_agent_pos opts md s intended pick = Except.ok s2) :
    s2.time_step = s.time_step := by
  simp only [update_agent_pos] at h
  obtain ⟨p, hloop, hrest⟩ := except_bind_ok h
  obtain ⟨sl, fl, hsl⟩ := p
  simp only [] at hrest
  injection hrest with h2
  subst h2
  have hacc := update_agent_pos_loop_acc hloop
  have hslt : sl.time_step = s.time_step := by
    rcases hacc.2 rfl with ⟨he, _⟩ | ⟨a, b, he, _⟩
    · rw [he]
    · rw [he, time_step_switch_ball]
  have hc := (commit_fold_spec fl (List.range (get_agent_size opts)) sl).1
  unfold commit_positions
  rw [hc, hslt]

/-! ## Claim C10: no terminal-state check in take_action -/

/-- C10: `take_action` performs no terminal-state check — whenever it
succeeds on a state that is already terminal (`time_step ≥ 100` or some
agent winning), it still increments the time step (so `time_step` grows
past 100) and recomputes the reward from the new state (so the reward
may be nonzero again). -/
theorem c10_no_terminal_check (opts : SoccerEnvironmentOptions)
    (md : SoccerMapData) (s : SoccerState) (action : List Action)
    (r : StepRand) (obs : SoccerObservation) (s' : SoccerState)
    (hterm : s.is_terminal opts md = true)
    (h : take_action opts md s action r = Except.ok (obs, s')) :
    s'.time_step = s.time_step + 1 ∧ obs.reward = get_reward opts md s' := by
  clear hterm
  simp only [take_action] at h
  obtain ⟨a1, hwrap, h2⟩ := except_bind_ok h
  obtain ⟨p, hip, h3⟩ := except_bind_ok h2
  obtain ⟨si, fi⟩ := p
  obtain ⟨su, hup, h4⟩ := except_bind_ok h3
  injection h4 with h5
  rw [Prod.mk.injEq] at h5
  obtain ⟨hobs, hst⟩ := h5
  subst hobs hst
  have hsu := update_agent_pos_ok_time hup
  have hsi : si.time_step = s.time_step := by
    unfold get_intended_pos at hip
    exact (intended_pos_aux_spec opts md a1 r (agent_enum opts) s _ si fi
      hip).2.2.1
  constructor
  · show su.time_step + 1 = s.time_step + 1
    rw [hsu, hsi]
  · rfl

/-- Witness for C10: `stateBall0` is terminal (its `time_step` is
exactly 100), yet `take_action` succeeds on it and advances the clock
to 101. -/
theorem c10_witness :
    stateBall0.is_terminal opts1 mdCorridor = true ∧
    stateBall0.time_step = 100 ∧
    stateBall0After.time_step = stateBall0.time_step + 1 := by
  refine ⟨by decide, rfl, ?_⟩
  exact (c10_no_terminal_check opts1 mdCorridor stateBall0 [Action.STAND]
    stepRand0 ⟨[Action.STAND], 0⟩ stateBall0After (by decide) (by rfl)).1

/-! ## Claim C6: the INTERCEPT distance guard -/

theorem intercept_fold_inv (md : SoccerMapData) (source_pos target_pos : Pos)
    (default_action : Action) :
    ∀ (l : List Action) (b : Action × Int),
      (b.1 = default_action ∨
        (get_moved_pos source_pos b.1 ∈ md.walkable ∧ 1 ≤ b.2 ∧
          b.2 = get_pos_distance_sq (get_moved_pos source_pos b.1)
            target_pos)) →
      ((l.foldl (strategic_step md source_pos target_pos
          StrategicMode.INTERCEPT) b).1 = default_action ∨
        (get_moved_pos source_pos (l.foldl (strategic_step md source_pos
            target_pos StrategicMode.INTERCEPT) b).1 ∈ md.walkable ∧
          1 ≤ (l.foldl (strategic_step md source_pos target_pos
            StrategicMode.INTERCEPT) b).2 ∧
          (l.foldl (strategic_step md source_pos target_pos
            StrategicMode.INTERCEPT) b).2 =
            get_pos_distance_sq (get_moved_pos source_pos
              (l.foldl (strategic_step md source_pos target_pos
                StrategicMode.INTERCEPT) b).1) target_pos))
  | [], b, hb => hb
  | action :: l, b, hb => by
    rw [List.foldl_cons]
    apply intercept_fold_inv md source_pos target_pos default_action l
    unfold strategic_step
    by_cases hw : get_moved_pos source_pos action ∈ md.walkable
    · rw [if_neg (by simpa using hw)]
      by_cases hcond : get_pos_distance_sq (get_moved_pos source_pos action)
          target_pos < b.2 ∧
          get_pos_distance_sq (get_moved_pos source_pos action) target_pos ≥ 1
      · simp only [if_pos hcond]
        exact Or.inr ⟨hw, hcond.2, by trivial⟩
      · simp only [if_neg hcond]
        exact hb
    · rw [if_pos (by simpa using hw)]
      exact hb

/-- C6 counterexample: on the corridor map, an INTERCEPT search from
`(0,0)` toward the adjacent target `(1,0)` with the random default
action `MOVE_RIGHT` (and the shuffle in source order) returns
`MOVE_RIGHT`, whose resulting tile is the target itself — Euclidean
distance `0 < 1.0` (squared distance `0 < 1`).  The uniformly-random
default incumbent is never tested against the `>= 1.0` guard, so the
interceptor can land exactly on the target. -/
theorem c6_counterexample :
    get_strategic_action mdCorridor ⟨0, 0⟩ ⟨1, 0⟩ StrategicMode.INTERCEPT
      Action.MOVE_RIGHT actions = Action.MOVE_RIGHT ∧
    get_pos_distance_sq
      (get_moved_pos ⟨0, 0⟩
        (get_strategic_action mdCorridor ⟨0, 0⟩ ⟨1, 0⟩
          StrategicMode.INTERCEPT Action.MOVE_RIGHT actions)) ⟨1, 0⟩ < 1 := by
  decide

/-- C6 (amended): an INTERCEPT search either returns the
uniformly-random default action unmodified (no candidate ever displaced
the incumbent — in that case the returned move may land on the target),
or it returns a candidate that was admitted by the INTERCEPT
comparator, whose resulting tile is walkable and lies at squared
distance at least 1 (Euclidean distance at least 1.0) from the
target. -/
theorem c6_intercept_guarantee (md : SoccerMapData)
    (source_pos target_pos : Pos) (default_action : Action)
    (shuffled_actions : List Action) :
    get_strategic_action md source_pos target_pos StrategicMode.INTERCEPT
      default_action shuffled_actions = default_action ∨
    (get_moved_pos source_pos
        (get_strategic_action md source_pos target_pos
          StrategicMode.INTERCEPT default_action shuffled_actions) ∈
      md.walkable ∧
      1 ≤ get_pos_distance_sq
        (get_moved_pos source_pos
          (get_strategic_action md source_pos target_pos
            StrategicMode.INTERCEPT default_action shuffled_actions))
        target_pos) := by
  have h := intercept_fold_inv md source_pos target_pos default_action
    shuffled_actions
    (default_action, get_pos_distance_sq source_pos target_pos)
    (Or.inl rfl)
  unfold get_strategic_action
  rcases h with h | ⟨hw, hge, heq⟩
  · exact Or.inl h
  · exact Or.inr ⟨hw, by rw [← heq]; exact hge⟩

/-! ## Characterization of the overlapping-position groups -/

theorem findGroup_addToGroup_same :
    ∀ (G : List (Pos × List Nat)) (p : Pos) (i : Nat),
      findGroup (addToGroup G p i) p = findGroup G p ++ [i]
  | [], p, i => by simp [addToGroup, findGroup]
  | (q, l) :: rest, p, i => by
    by_cases hq : q = p
    · simp [addToGroup, findGroup, hq]
    · simp only [addToGroup, findGroup, if_neg hq]
      exact findGroup_addToGroup_same rest p i

theorem findGroup_addToGroup_ne :
    ∀ (G : List (Pos × List Nat)) (p p2 : Pos) (i : Nat), p2 ≠ p →
      findGroup (addToGroup G p i) p2 = findGroup G p2
  | [], p, p2, i, hne => by
    simp only [addToGroup, findGroup]
    rw [if_neg (fun h => hne h.symm)]
  | (q, l) :: rest, p, p2, i, hne => by
    by_cases hq : q = p
    · have hqp2 : ¬ q = p2 := by
        intro h
        exact hne (by rw [← h, hq])
      simp only [addToGroup, if_pos hq, findGroup]
      rw [if_neg hqp2, if_neg hqp2]
    · simp only [addToGroup, if_neg hq, findGroup]
      by_cases hq2 : q = p2
      · rw [if_pos hq2, if_pos hq2]
      · rw [if_neg hq2, if_neg hq2]
        exact findGroup_addToGroup_ne rest p p2 i hne

theorem addToGroup_keys :
    ∀ (G : List (Pos × List Nat)) (p : Pos) (i : Nat),
      (addToGroup G p i).map Prod.fst =
        if p ∈ G.map Prod.fst then G.map Prod.fst
        else G.map Prod.fst ++ [p]
  | [], p, i => by simp [addToGroup]
  | (q, l) :: rest, p, i => by
    by_cases hq : q = p
    · subst hq
      simp [addToGroup]
    · simp only [addToGroup, if_neg hq, List.map_cons]
      rw [addToGroup_keys rest p i]
      by_cases hmem : p ∈ rest.map Prod.fst
      · rw [if_pos hmem, if_pos (List.mem_cons_of_mem q hmem)]
      · have hnp : p ∉ q :: rest.map Prod.fst := by
          intro hc
          rcases List.mem_cons.mp hc with he | hm
          · exact hq he.symm
          · exact hmem hm
        rw [if_neg hmem, if_neg hnp]
        simp

theorem addToGroup_mem (p : Pos) (i : Nat) :
    ∀ (G : List (Pos × List Nat)), (G.map Prod.fst).Nodup →
    ∀ (q : Pos) (m : List Nat),
      ((q, m) ∈ addToGroup G p i ↔
        ((q ≠ p ∧ (q, m) ∈ G) ∨ (q = p ∧ m = findGroup G p ++ [i])))
  | [], _, q, m => by
    simp only [addToGroup, findGroup, List.mem_singleton, Prod.mk.injEq,
      List.nil_append]
    constructor
    · intro ⟨h1, h2⟩
      exact Or.inr ⟨h1, h2⟩
    · intro h
      rcases h with ⟨_, h2⟩ | ⟨h1, h2⟩
      · exact absurd h2 (List.not_mem_nil _)
      · exact ⟨h1, h2⟩
  | (q0, l0) :: rest, hnod, q, m => by
    have hcons := hnod
    simp only [List.map_cons] at hcons
    have hq0nin : q0 ∉ rest.map Prod.fst := (List.nodup_cons.mp hcons).1
    have hrestnod : (rest.map Prod.fst).Nodup := (List.nodup_cons.mp hcons).2
    by_cases hq0 : q0 = p
    · subst hq0
      have hadd : addToGroup ((q0, l0) :: rest) q0 i =
          (q0, l0 ++ [i]) :: rest := by
        simp [addToGroup]
      have hfg : findGroup ((q0, l0) :: rest) q0 = l0 := by
        simp [findGroup]
      rw [hadd, hfg]
      constructor
      · intro h
        rcases List.mem_cons.mp h with he | hmem
        · rw [Prod.mk.injEq] at he
          exact Or.inr ⟨he.1, he.2⟩
        · refine Or.inl ⟨?_, List.mem_cons_of_mem _ hmem⟩
          intro heq
          subst heq
          exact hq0nin (List.mem_map_of_mem Prod.fst hmem)
      · intro h
        rcases h with ⟨hne, hmem⟩ | ⟨he, hm⟩
        · rcases List.mem_cons.mp hmem with he2 | hmem2
          · rw [Prod.mk.injEq] at he2
            exact absurd he2.1 hne
          · exact List.mem_cons_of_mem _ hmem2
        · subst he
          subst hm
          exact List.mem_cons_self _ _
    · have hadd : addToGroup ((q0, l0) :: rest) p i =
          (q0, l0) :: addToGroup rest p i := by
        simp [addToGroup, hq0]
      have hfg : findGroup ((q0, l0) :: rest) p = findGroup rest p := by
        simp [findGroup, hq0]
      rw [hadd, hfg]
      constructor
      · intro h
        rcases List.mem_cons.mp h with he | hmem
        · rw [Prod.mk.injEq] at he
          refine Or.inl ⟨?_, List.mem_cons.mpr (Or.inl (by
            rw [Prod.mk.injEq]
            exact he))⟩
          intro hc
          exact hq0 (he.1.symm.trans hc)
        · rcases (addToGroup_mem p i rest hrestnod q m).mp hmem with
            ⟨hne, hmem2⟩ | ⟨he, hm⟩
          · exact Or.inl ⟨hne, List.mem_cons_of_mem _ hmem2⟩
          · exact Or.inr ⟨he, hm⟩
      · intro h
        rcases h with ⟨hne, hmem⟩ | ⟨he, hm⟩
        · rcases List.mem_cons.mp hmem with he2 | hmem2
          · exact List.mem_cons.mpr (Or.inl he2)
          · exact List.mem_cons_of_mem _
              ((addToGroup_mem p i rest hrestnod q m).mpr
                (Or.inl ⟨hne, hmem2⟩))
        · exact List.mem_cons_of_mem _
            ((addToGroup_mem p i rest hrestnod q m).mpr (Or.inr ⟨he, hm⟩))

theorem groups_fold_spec (key : Nat → Pos) (idxs : List Nat) :
    (∀ p, findGroup (idxs.foldl (fun g i => addToGroup g (key i) i) []) p =
      idxs.filter (fun j => key j = p)) ∧
    ((idxs.foldl (fun g i => addToGroup g (key i) i) []).map
      Prod.fst).Nodup ∧
    (∀ p m, (p, m) ∈ idxs.foldl (fun g i => addToGroup g (key i) i) [] ↔
      (m = idxs.filter (fun j => key j = p) ∧ m ≠ [])) := by
  induction idxs using List.reverseRecOn with
  | nil =>
    refine ⟨fun p => rfl, by simp, fun p m => ?_⟩
    simp [findGroup]
  | append_singleton idxs i ih =>
    obtain ⟨ih1, ih2, ih3⟩ := ih
    have hF : (idxs ++ [i]).foldl (fun g j => addToGroup g (key j) j) [] =
        addToGroup (idxs.foldl (fun g j => addToGroup g (key j) j) [])
          (key i) i := by
      rw [List.foldl_append]
      rfl
    refine ⟨?_, ?_, ?_⟩
    · intro p
      rw [hF]
      by_cases hp : key i = p
      · rw [← hp, findGroup_addToGroup_same, ih1, List.filter_append]
        simp
      · rw [findGroup_addToGroup_ne _ _ _ _ (fun h => hp h.symm), ih1,
          List.filter_append]
        simp [hp]
    · rw [hF, addToGroup_keys]
      by_cases hmem : key i ∈
          (idxs.foldl (fun g j => addToGroup g (key j) j) []).map Prod.fst
      · rw [if_pos hmem]
        exact ih2
      · rw [if_neg hmem]
        refine List.Nodup.append ih2 (by simp) ?_
        intro a ha hb
        rw [List.mem_singleton] at hb
        subst hb
        exact hmem ha
    · intro p m
      rw [hF, addToGroup_mem (key i) i _ ih2 p m, ih1, List.filter_append]
      constructor
      · intro h
        rcases h with ⟨hne, hmem⟩ | ⟨he, hm⟩
        · obtain ⟨hm1, hm2⟩ := (ih3 p m).mp hmem
          refine ⟨?_, hm2⟩
          rw [hm1]
          have hknp : ¬ key i = p := fun h => hne h.symm
          have hfi : [i].filter (fun j => decide (key j = p)) = [] := by
            simp [hknp]
          rw [hfi, List.append_nil]
        · subst he
          constructor
          · rw [hm]
            have hfi : [i].filter (fun j => decide (key j = key i)) = [i] := by
              simp
            rw [hfi]
          · rw [hm]
            simp
      · intro ⟨hm, hmne⟩
        by_cases hp : p = key i
        · subst hp
          refine Or.inr ⟨rfl, ?_⟩
          rw [hm]
          have hfi : [i].filter (fun j => decide (key j = key i)) = [i] := by
            simp
          rw [hfi]
        · refine Or.inl ⟨hp, (ih3 p m).mpr ⟨?_, hmne⟩⟩
          have hknp : ¬ key i = p := fun h => hp h.symm
          have hfi : [i].filter (fun j => decide (key j = p)) = [] := by
            simp [hknp]
          rw [hfi, List.append_nil] at hm
          exact hm

/-! ## Success of the ball switch under the uniqueness invariant -/

theorem holder_fold_some {s : SoccerState} :
    ∀ (m : List Nat) (acc : Option Nat) (a : Nat),
      m.foldl (fun acc i => if s.get_agent_ball i then some i else acc)
        acc = some a →
      (a ∈ m ∧ s.get_agent_ball a = true) ∨ acc = some a
  | [], acc, a, h => Or.inr h
  | i :: m, acc, a, h => by
    rw [List.foldl_cons] at h
    rcases holder_fold_some m _ a h with ⟨hm, hb⟩ | hacc
    · exact Or.inl ⟨List.mem_cons_of_mem _ hm, hb⟩
    · by_cases hb : s.get_agent_ball i = true
      · rw [if_pos hb] at hacc
        injection hacc with h1
        subst h1
        exact Or.inl ⟨List.mem_cons_self _ _, hb⟩
      · rw [if_neg hb] at hacc
        exact Or.inr hacc

theorem exists_other_of_nodup {m : List Nat} (hnod : m.Nodup)
    (hlen : 1 < m.length) (a : Nat) : ∃ b ∈ m, b ≠ a := by
  match m, hlen with
  | x :: y :: rest, _ =>
    by_cases hx : x = a
    · subst hx
      refine ⟨y, List.mem_cons_of_mem _ (List.mem_cons_self _ _), ?_⟩
      intro he
      subst he
      exact (List.nodup_cons.mp hnod).1 (List.mem_cons_self _ _)
    · exact ⟨x, List.mem_cons_self _ _, hx⟩

/-- Under the at-most-one-ball invariant, `_update_ball_possession` on a
group of two or more distinct in-range claimants always succeeds
(`random.choice` never sees an empty list) and preserves both the ball
count and the positions. -/
theorem update_ball_possession_ok (s : SoccerState) (pick : Nat)
    (m : List Nat) (hin : ∀ i ∈ m, i < s.agent_list.length)
    (hnodm : m.Nodup) (hlen : 1 < m.length) (hball : ballCount s ≤ 1) :
    ∃ s2 sw, update_ball_possession s pick m = Except.ok (s2, sw) ∧
      ballCount s2 = ballCount s ∧ posList s2 = posList s := by
  simp only [update_ball_possession]
  cases hh : m.foldl (fun acc agent_index =>
      if s.get_agent_ball agent_index then some agent_index else acc)
      none with
  | none => exact ⟨s, false, rfl, rfl, rfl⟩
  | some a =>
    rcases holder_fold_some m none a hh with ⟨ham, hab⟩ | hacc
    · have hone : ballCount s = 1 := by
        have h1 : 1 ≤ (ballFlags s).countP (fun x => x) := by
          apply list_one_true_le_countP _ a
          · rw [ballFlags_length]
            exact hin a ham
          · rw [← get_agent_ball_eq_getD]
            exact hab
        rw [ballCount_eq_countP_flags]
        rw [ballCount_eq_countP_flags] at hball
        omega
      obtain ⟨b, hbm, hba⟩ := exists_other_of_nodup hnodm hlen a
      have hbb : s.get_agent_ball b = false := by
        by_cases hb : s.get_agent_ball b = true
        · exfalso
          have h2 : 2 ≤ (ballFlags s).countP (fun x => x) := by
            apply list_two_true_le_countP _ b a
            · rw [ballFlags_length]
              exact hin b hbm
            · rw [ballFlags_length]
              exact hin a ham
            · exact hba
            · rw [← get_agent_ball_eq_getD]
              exact hb
            · rw [← get_agent_ball_eq_getD]
              exact hab
          rw [ballCount_eq_countP_flags] at hball
          omega
        · cases hby : s.get_agent_ball b
          · rfl
          · exact absurd hby hb
      have hbfilter : b ∈ m.filter
          (fun agent_index => decide ¬ s.get_agent_ball agent_index = true) := by
        rw [List.mem_filter]
        exact ⟨hbm, by simp [hbb]⟩
      have hne : m.filter
          (fun agent_index => decide ¬ s.get_agent_ball agent_index = true)
          ≠ [] := fun he => by
        rw [he] at hbfilter
        exact List.not_mem_nil b hbfilter
      have hlt : pick % (m.filter (fun agent_index =>
          decide ¬ s.get_agent_ball agent_index = true)).length <
          (m.filter (fun agent_index =>
            decide ¬ s.get_agent_ball agent_index = true)).length := by
        apply Nat.mod_lt
        cases hfl : (m.filter (fun agent_index =>
            decide ¬ s.get_agent_ball agent_index = true)).length
        · exact absurd (List.length_eq_zero.mp hfl) hne
        · omega
      cases hget : (m.filter (fun agent_index =>
          decide ¬ s.get_agent_ball agent_index = true)).get?
          (pick % (m.filter (fun agent_index =>
            decide ¬ s.get_agent_ball agent_index = true)).length) with
      | none =>
        exfalso
        rw [List.get?_eq_none] at hget
        omega
      | some b2 =>
        have hb2mem : b2 ∈ m.filter (fun agent_index =>
            decide ¬ s.get_agent_ball agent_index = true) :=
          List.get?_mem hget
        have hb2m : b2 ∈ m := (List.mem_filter.mp hb2mem).1
        have hb2b : s.get_agent_ball b2 = false := by
          have := (List.mem_filter.mp hb2mem).2
          simp at this
          cases hby : s.get_agent_ball b2
          · rfl
          · rw [hby] at this
            cases this
        refine ⟨s.switch_ball a b2, true, rfl, ?_, posList_switch_ball s a b2⟩
        rw [hone]
        exact ballCount_switch_ball_one s a b2 (hin a ham) (hin b2 hb2m)
          hab hb2b hone
    · exact absurd hacc (by intro hc; cases hc)

/-! ## Groups of the dict, derived properties -/

theorem get_overlapping_mem_iff (md : SoccerMapData) (s : SoccerState)
    (n : Nat) (intended : Nat → Pos) (p : Pos) (m : List Nat) :
    (p, m) ∈ get_overlapping_pos_to_agent md s n intended ↔
      (m = (List.range n).filter
        (fun j => effective_pos md s intended j = p) ∧ m ≠ []) :=
  (groups_fold_spec (effective_pos md s intended) (List.range n)).2.2 p m

theorem group_member_props {md : SoccerMapData} {s : SoccerState}
    {n : Nat} {intended : Nat → Pos} {p : Pos} {m : List Nat}
    (h : (p, m) ∈ get_overlapping_pos_to_agent md s n intended) :
    m.Nodup ∧ ∀ i ∈ m, i < n ∧ effective_pos md s intended i = p := by
  obtain ⟨hm, _⟩ := (get_overlapping_mem_iff md s n intended p m).mp h
  subst hm
  constructor
  · exact (List.nodup_range n).filter _
  · intro i hi
    rw [List.mem_filter] at hi
    exact ⟨by simpa using hi.1, by simpa using hi.2⟩

theorem get_agent_pos_inj {s : SoccerState} {n : Nat}
    (hn : n = s.agent_list.length) (hnod : (posList s).Nodup)
    {i j : Nat} (hi : i < n) (hj : j < n) (hij : i ≠ j) :
    s.get_agent_pos i ≠ s.get_agent_pos j := by
  intro he
  have hi' : i < (posList s).length := by rw [posList_length]; omega
  have hj' : j < (posList s).length := by rw [posList_length]; omega
  rw [get_agent_pos_eq_getD, get_agent_pos_eq_getD,
    list_getD_eq_getElem _ _ _ hi', list_getD_eq_getElem _ _ _ hj'] at he
  exact hij (List.Nodup.getElem_inj_iff hnod |>.mp he)

theorem movers_congr {s s' : SoccerState} (n : Nat) (intended : Nat → Pos)
    (h : posList s = posList s') :
    movers s n intended = movers s' n intended := by
  unfold movers
  apply List.countP_congr
  intro i _
  rw [get_agent_pos_congr h i]

/-- An overlap-detecting iteration strictly decreases the number of
moving agents, provided the current positions are pairwise distinct:
every contested tile has at most one claimant already standing on it,
so rolling the group back silences at least one genuine mover. -/
theorem movers_decrease {md : SoccerMapData} {n pick : Nat}
    {s : SoccerState} {intended : Nat → Pos} {hs : Bool}
    {s' : SoccerState} {intended' : Nat → Pos} {hs' det : Bool}
    (hn : n = s.agent_list.length) (hnod : (posList s).Nodup)
    (h : overlap_iteration md n pick s intended hs =
      Except.ok (s', intended', hs', det))
    (hdet : det = true) :
    movers s n intended' < movers s n intended := by
  obtain ⟨_, _, _, _, hdetiff, hres⟩ := overlap_iteration_spec h
  obtain ⟨g, hg, hglen⟩ := hdetiff.mp hdet
  obtain ⟨p, m⟩ := g
  obtain ⟨hmnod, hmem⟩ := group_member_props hg
  have hglen' : 1 < m.length := hglen
  obtain ⟨x, hxm, hx⟩ : ∃ x ∈ m, True := by
    match m, hglen' with
    | y :: rest, _ => exact ⟨y, List.mem_cons_self _ _, trivial⟩
  obtain ⟨y, hym, hyx⟩ := exists_other_of_nodup hmnod hglen' x
  have hiexists : ∃ i ∈ m, s.get_agent_pos i ≠ p := by
    by_cases hxp : s.get_agent_pos x = p
    · refine ⟨y, hym, ?_⟩
      intro hyp
      exact get_agent_pos_inj hn hnod (hmem y hym).1 (hmem x hxm).1 hyx
        (hyp.trans hxp.symm)
    · exact ⟨x, hxm, hxp⟩
  obtain ⟨i, him, hip⟩ := hiexists
  have heffi : effective_pos md s intended i = p := (hmem i him).2
  have himover : intended i ≠ s.get_agent_pos i := by
    unfold effective_pos at heffi
    by_cases hw : intended i ∈ md.walkable
    · rw [if_neg (by simpa using hw)] at heffi
      intro he
      exact hip (by rw [← he, heffi])
    · rw [if_pos (by simpa using hw)] at heffi
      exact absurd heffi hip
  have hicontested : ∃ g ∈ get_overlapping_pos_to_agent md s n intended,
      1 < g.2.length ∧ i ∈ g.2 := ⟨(p, m), hg, hglen, him⟩
  have hireset : intended' i = s.get_agent_pos i := (hres i).1 hicontested
  unfold movers
  apply list_countP_lt
  · intro j _ hj
    by_cases hc : ∃ g ∈ get_overlapping_pos_to_agent md s n intended,
        1 < g.2.length ∧ j ∈ g.2
    · rw [(hres j).1 hc] at hj
      simp at hj
    · rw [(hres j).2 hc] at hj
      exact hj
  · refine ⟨i, by simp [(hmem i him).1], by simpa using himover, ?_⟩
    simp [hireset]

/-- One iteration of the overlap loop always succeeds when at most one
agent holds the ball, and it preserves the ball count. -/
theorem overlap_foldlM_ok (md : SoccerMapData) (pick : Nat)
    (s0 : SoccerState) :
    ∀ (gs : List (Pos × List Nat))
      (st : SoccerState × (Nat → Pos) × Bool × Bool),
      (∀ g ∈ gs, g.2.Nodup ∧ ∀ i ∈ g.2, i < s0.agent_list.length) →
      posList st.1 = posList s0 → ballCount st.1 ≤ 1 →
      ∃ st', gs.foldlM (overlap_group_step md pick) st = Except.ok st' ∧
        ballCount st'.1 = ballCount st.1
  | [], st, _, _, _ =>
    ⟨st, by simp only [List.foldlM_nil, pure, Except.pure], rfl⟩
  | g :: gs, st, hprops, hpos, hball => by
    obtain ⟨s1, intended1, hs1, det1⟩ := st
    have hstep : ∃ st1, overlap_group_step md pick
        (s1, intended1, hs1, det1) g = Except.ok st1 ∧
        ballCount st1.1 = ballCount s1 ∧ posList st1.1 = posList s1 := by
      by_cases hg : g.2.length > 1
      · by_cases hhs : hs1 = true
        · subst hhs
          refine ⟨(s1, g.2.foldl (fun f agent_index =>
              updFn f agent_index (s1.get_agent_pos agent_index))
              intended1, true, true), ?_, rfl, rfl⟩
          simp only [overlap_group_step, if_pos hg]
          rw [if_neg (by simp)]
          simp only [bind, Except.bind]
        · have hhs' : hs1 = false := by
            cases hs1
            · rfl
            · exact absurd rfl hhs
          subst hhs'
          have hlen1 : s1.agent_list.length = s0.agent_list.length := by
            rw [← posList_length, ← posList_length, hpos]
          obtain ⟨s2, sw, hub, hcnt, hpos2⟩ := update_ball_possession_ok s1
            pick g.2
            (fun i hi => by rw [hlen1]; exact (hprops g
              (List.mem_cons_self _ _)).2 i hi)
            (hprops g (List.mem_cons_self _ _)).1 hg hball
          refine ⟨(s2, g.2.foldl (fun f agent_index =>
              updFn f agent_index (s2.get_agent_pos agent_index))
              intended1, false || sw, true), ?_, hcnt, hpos2⟩
          simp only [overlap_group_step, if_pos hg]
          rw [if_pos (by simp), hub]
          simp only [bind, Except.bind]
      · exact ⟨(s1, intended1, hs1, det1), by
          simp only [overlap_group_step, if_neg hg], rfl, rfl⟩
    obtain ⟨st1, hstep1, hcnt1, hpos1⟩ := hstep
    obtain ⟨st', hfold, hcnt'⟩ := overlap_foldlM_ok md pick s0 gs st1
      (fun g2 hg2 => hprops g2 (List.mem_cons_of_mem _ hg2))
      (by rw [hpos1]; exact hpos) (by rw [hcnt1]; exact hball)
    refine ⟨st', ?_, by rw [hcnt', hcnt1]⟩
    rw [List.foldlM_cons, hstep1]
    simpa [bind, Except.bind] using hfold

theorem overlap_iteration_ok {md : SoccerMapData} {n pick : Nat}
    {s : SoccerState} {intended : Nat → Pos} {hs : Bool}
    (hn : n = s.agent_list.length) (hball : ballCount s ≤ 1) :
    ∃ s' intended' hs' det, overlap_iteration md n pick s intended hs =
      Except.ok (s', intended', hs', det) ∧ ballCount s' = ballCount s := by
  have hprops : ∀ g ∈ get_overlapping_pos_to_agent md s n intended,
      g.2.Nodup ∧ ∀ i ∈ g.2, i < s.agent_list.length := by
    intro g hg
    obtain ⟨p, m⟩ := g
    obtain ⟨hmn, hmem⟩ := group_member_props hg
    exact ⟨hmn, fun i hi => by rw [← hn]; exact (hmem i hi).1⟩
  obtain ⟨st', hfold, hcnt⟩ := overlap_foldlM_ok md pick s
    (get_overlapping_pos_to_agent md s n intended)
    (s, intended, hs, false) hprops rfl hball
  obtain ⟨s', intended', hs', det⟩ := st'
  exact ⟨s', intended', hs', det, hfold, hcnt⟩

/-- Termination and fixed point of the `while detecting_overlap` loop:
with pairwise-distinct current positions and at most one ball holder,
fuel exceeding the current number of movers suffices, and at the fixed
point no tile is claimed by two or more agents. -/
theorem update_agent_pos_loop_ok {md : SoccerMapData} {n pick : Nat} :
    ∀ (fuel : Nat) (s : SoccerState) (intended : Nat → Pos) (hs : Bool),
      n = s.agent_list.length → (posList s).Nodup → ballCount s ≤ 1 →
      movers s n intended < fuel →
      ∃ s' intended' hs',
        update_agent_pos_loop md n pick fuel s intended hs =
          Except.ok (s', intended', hs') ∧
        posList s' = posList s ∧ ballCount s' = ballCount s ∧
        (∀ j, intended' j = intended j ∨
          intended' j = s.get_agent_pos j) ∧
        (∀ g ∈ get_overlapping_pos_to_agent md s' n intended',
          g.2.length ≤ 1)
  | 0, s, intended, hs, _, _, _, hfuel => absurd hfuel (by omega)
  | fuel + 1, s, intended, hs, hn, hnod, hball, hfuel => by
    obtain ⟨s1, intended1, hs1, det, hiter, hcnt⟩ :=
      @overlap_iteration_ok md n pick s intended hs hn hball
    obtain ⟨hpos1, _htime1, _, _, hdetiff, hres⟩ :=
      overlap_iteration_spec hiter
    by_cases hdet : det = true
    · have hrec := @update_agent_pos_loop_ok md n pick fuel s1 intended1 hs1
        (by rw [hn, ← posList_length, ← posList_length, hpos1])
        (by rw [hpos1]; exact hnod) (by rw [hcnt]; exact hball)
        (by
          have hdec := movers_decrease hn hnod hiter hdet
          have hcg := @movers_congr s s1 n intended1 hpos1.symm
          omega)
      obtain ⟨s', intended', hs', hloop, hp, hc, hj, hfix⟩ := hrec
      refine ⟨s', intended', hs', ?_, hp.trans hpos1,
        by rw [hc, hcnt], ?_, ?_⟩
      · show update_agent_pos_loop md n pick (fuel + 1) s intended hs =
          Except.ok (s', intended', hs')
        simp only [update_agent_pos_loop]
        rw [hiter]
        simp only [bind, Except.bind]
        rw [if_pos hdet, hloop]
      · intro j
        rcases hj j with he | he
        · by_cases hc2 : ∃ g ∈ get_overlapping_pos_to_agent md s n
              intended, 1 < g.2.length ∧ j ∈ g.2
          · rw [he, (hres j).1 hc2]
            exact Or.inr rfl
          · rw [he, (hres j).2 hc2]
            exact Or.inl rfl
        · rw [he]
          exact Or.inr (get_agent_pos_congr hpos1 j)
      · intro g hgmem
        have hn2 : n = s'.agent_list.length := by
          rw [hn, ← posList_length, ← posList_length, hp.trans hpos1]
        exact hfix g hgmem
    · have hdet' : det = false := by
        cases det
        · rfl
        · exact absurd rfl hdet
      subst hdet'
      have hnores : ∀ j, intended1 j = intended j := by
        intro j
        apply (hres j).2
        intro ⟨g, hgmem, hglen, _⟩
        exact hdet (hdetiff.mpr ⟨g, hgmem, hglen⟩)
      refine ⟨s1, intended1, hs1, ?_, hpos1, hcnt, fun j =>
        Or.inl (hnores j), ?_⟩
      · show update_agent_pos_loop md n pick (fuel + 1) s intended hs =
          Except.ok (s1, intended1, hs1)
        simp only [update_agent_pos_loop]
        rw [hiter]
        simp only [bind, Except.bind]
        rw [if_neg (by simp)]
      · intro g hgmem
        obtain ⟨p, m⟩ := g
        have heff : ∀ j, effective_pos md s1 intended1 j =
            effective_pos md s intended j := by
          intro j
          unfold effective_pos
          rw [hnores j, get_agent_pos_congr hpos1 j]
        obtain ⟨hm, hmne⟩ :=
          (get_overlapping_mem_iff md s1 n intended1 p m).mp hgmem
        have hm0 : m = (List.range n).filter
            (fun j => effective_pos md s intended j = p) := by
          rw [hm]
          apply List.filter_congr
          intro j _
          rw [heff j]
        have hgmem0 : (p, m) ∈ get_overlapping_pos_to_agent md s n
            intended := (get_overlapping_mem_iff md s n intended p m).mpr
          ⟨hm0, hmne⟩
        by_cases hglen : 1 < m.length
        · exact absurd (hdetiff.mpr ⟨(p, m), hgmem0, hglen⟩) hdet
        · show m.length ≤ 1
          omega

theorem movers_le (s : SoccerState) (n : Nat) (intended : Nat → Pos) :
    movers s n intended ≤ n := by
  unfold movers
  calc (List.range n).countP _ ≤ (List.range n).length :=
        List.countP_le_length _
    _ = n := List.length_range n

/-! ## Claim C3: overlap-loop termination -/

/-- C3 counterexample: a state whose agent positions are pairwise
distinct but in which two agents hold a ball (the claim quantifies over
*every* input state with distinct positions) makes the overlap loop
raise `IndexError` — in the source, `random.choice` on the empty
`no_ball_agent_list` — instead of reaching a fixed point. -/
theorem c3_counterexample :
    (posList stateTwoBalls).Nodup ∧
    update_agent_pos_loop mdCorridor 2 0 3 stateTwoBalls intendedBoth00
      false = Except.error Err.IndexError :=
  ⟨by decide, rfl⟩

/-- C3 (amended): for every input state whose agent positions are
pairwise distinct and in which at most one agent holds the ball, and
for every intended-destination map, the overlap-resolution loop of
`_update_agent_pos` succeeds within fuel `N + 1` for `N = 2*teamSize`
agents — that is, after at most `N` overlap-detecting iterations plus
the final detection-free pass — and reaches a fixed point in which no
tile is claimed by two or more agents. -/
theorem c3_overlap_loop_termination (opts : SoccerEnvironmentOptions)
    (md : SoccerMapData) (s : SoccerState) (intended : Nat → Pos)
    (pick : Nat) (hlen : s.agent_list.length = get_agent_size opts)
    (hnod : (posList s).Nodup) (hball : ballCount s ≤ 1) :
    ∃ s' intended' hs',
      update_agent_pos_loop md (get_agent_size opts) pick
        (get_agent_size opts + 1) s intended false =
        Except.ok (s', intended', hs') ∧
      ∀ g ∈ get_overlapping_pos_to_agent md s' (get_agent_size opts)
        intended', g.2.length ≤ 1 := by
  obtain ⟨s', intended', hs', hloop, _, _, _, hfix⟩ :=
    @update_agent_pos_loop_ok md (get_agent_size opts) pick
      (get_agent_size opts + 1) s intended false hlen.symm hnod hball
      (by have := movers_le s (get_agent_size opts) intended; omega)
  exact ⟨s', intended', hs', hloop, hfix⟩

/-- Witness for C3 on the concrete clash: both agents of `stateBall0`
aim at tile `(1,0)`; the loop resolves it within fuel 3. -/
theorem c3_witness :
    stateBall0.agent_list.length = get_agent_size opts1 ∧
    (∃ s' intended' hs',
      update_agent_pos_loop mdCorridor (get_agent_size opts1) 0
        (get_agent_size opts1 + 1) stateBall0 intendedClash false =
        Except.ok (s', intended', hs') ∧
      ∀ g ∈ get_overlapping_pos_to_agent mdCorridor s'
        (get_agent_size opts1) intended', g.2.length ≤ 1) :=
  ⟨by decide, c3_overlap_loop_termination opts1 mdCorridor stateBall0
    intendedClash 0 (by decide) (by decide) (by decide)⟩

/-! ## Claim C4: effect of overlap resolution -/

theorem holder_keep_fold {s : SoccerState} :
    ∀ (m : List Nat) (a : Nat),
      (∀ b ∈ m, s.get_agent_ball b = true → b = a) →
      m.foldl (fun acc i => if s.get_agent_ball i then some i else acc)
        (some a) = some a
  | [], a, _ => rfl
  | i :: m, a, huniq => by
    rw [List.foldl_cons]
    by_cases hb : s.get_agent_ball i = true
    · rw [if_pos hb, huniq i (List.mem_cons_self _ _) hb]
      exact holder_keep_fold m a
        (fun b hbm => huniq b (List.mem_cons_of_mem _ hbm))
    · rw [if_neg hb]
      exact holder_keep_fold m a
        (fun b hbm => huniq b (List.mem_cons_of_mem _ hbm))

theorem holder_fold_unique {s : SoccerState} :
    ∀ (m : List Nat) (a : Nat), a ∈ m → s.get_agent_ball a = true →
      (∀ b ∈ m, b ≠ a → s.get_agent_ball b = false) →
      m.foldl (fun acc i => if s.get_agent_ball i then some i else acc)
        none = some a
  | [], a, ham, _, _ => absurd ham (List.not_mem_nil a)
  | i :: m, a, ham, hab, huniq => by
    rw [List.foldl_cons]
    by_cases hia : i = a
    · subst hia
      rw [if_pos hab]
      apply holder_keep_fold
      intro b hbm hbb
      by_cases hba : b = i
      · exact hba
      · exact absurd hbb (by
          rw [huniq b (List.mem_cons_of_mem _ hbm) hba]
          simp)
    · have hib : s.get_agent_ball i = false :=
        huniq i (List.mem_cons_self _ _) hia
      rw [if_neg (by rw [hib]; simp)]
      have ham2 : a ∈ m := by
        rcases List.mem_cons.mp ham with he | hm
        · exact absurd he.symm hia
        · exact hm
      exact holder_fold_unique m a ham2 hab
        (fun b hbm => huniq b (List.mem_cons_of_mem _ hbm))

/-- C4: within a single `take_action`, (i) when a tile is claimed by two
or more agents of which exactly one — say `a` — holds the ball, the
ball is reassigned from `a` to an oracle-chosen (uniformly random in
the source) *other* claimant of that tile; (ii) across the whole
overlap loop — all tiles, all iterations — the state changes by at most
one such reassignment per step; (iii) in the iteration that detects a
contested tile, every agent on it has its intended destination reset to
its current (pre-step, since the loop never moves agents) position. -/
theorem c4_ball_switch_behavior :
    (∀ (s : SoccerState) (pick : Nat) (m : List Nat) (a : Nat),
      (∀ i ∈ m, i < s.agent_list.length) → m.Nodup → 1 < m.length →
      a ∈ m → s.get_agent_ball a = true →
      (∀ b ∈ m, b ≠ a → s.get_agent_ball b = false) →
      ∃ b ∈ m, b ≠ a ∧ s.get_agent_ball b = false ∧
        update_ball_possession s pick m =
          Except.ok (s.switch_ball a b, true) ∧
        (s.switch_ball a b).get_agent_ball a = false ∧
        (s.switch_ball a b).get_agent_ball b = true) ∧
    (∀ (md : SoccerMapData) (n pick fuel : Nat) (s : SoccerState)
      (intended : Nat → Pos) (s' : SoccerState) (intended' : Nat → Pos)
      (hs' : Bool),
      update_agent_pos_loop md n pick fuel s intended false =
        Except.ok (s', intended', hs') →
      s' = s ∨ ∃ a b, s' = s.switch_ball a b) ∧
    (∀ (md : SoccerMapData) (n pick : Nat) (s : SoccerState)
      (intended : Nat → Pos) (hs : Bool) (s' : SoccerState)
      (intended' : Nat → Pos) (hs' det : Bool),
      overlap_iteration md n pick s intended hs =
        Except.ok (s', intended', hs', det) →
      ∀ g ∈ get_overlapping_pos_to_agent md s n intended,
        1 < g.2.length → ∀ i ∈ g.2, intended' i = s.get_agent_pos i) := by
  refine ⟨?_, ?_, ?_⟩
  · intro s pick m a hin hnodm hlen ham hab huniq
    have hfold := holder_fold_unique m a ham hab huniq
    obtain ⟨c, hcm, hca⟩ := exists_other_of_nodup hnodm hlen a
    have hcb : s.get_agent_ball c = false := huniq c hcm hca
    have hcfilter : c ∈ m.filter
        (fun agent_index => decide ¬ s.get_agent_ball agent_index = true) := by
      rw [List.mem_filter]
      exact ⟨hcm, by simp [hcb]⟩
    have hne : m.filter
        (fun agent_index => decide ¬ s.get_agent_ball agent_index = true)
        ≠ [] := fun he => by
      rw [he] at hcfilter
      exact List.not_mem_nil c hcfilter
    have hlt : pick % (m.filter (fun agent_index =>
        decide ¬ s.get_agent_ball agent_index = true)).length <
        (m.filter (fun agent_index =>
          decide ¬ s.get_agent_ball agent_index = true)).length := by
      apply Nat.mod_lt
      cases hfl : (m.filter (fun agent_index =>
          decide ¬ s.get_agent_ball agent_index = true)).length
      · exact absurd (List.length_eq_zero.mp hfl) hne
      · omega
    cases hget : (m.filter (fun agent_index =>
        decide ¬ s.get_agent_ball agent_index = true)).get?
        (pick % (m.filter (fun agent_index =>
          decide ¬ s.get_agent_ball agent_index = true)).length) with
    | none =>
      exfalso
      rw [List.get?_eq_none] at hget
      omega
    | some b =>
      have hbmem : b ∈ m.filter (fun agent_index =>
          decide ¬ s.get_agent_ball agent_index = true) :=
        List.get?_mem hget
      have hbm : b ∈ m := (List.mem_filter.mp hbmem).1
      have hbb : s.get_agent_ball b = false := by
        have hh := (List.mem_filter.mp hbmem).2
        simp at hh
        cases hby : s.get_agent_ball b
        · rfl
        · rw [hby] at hh
          cases hh
      have hba : b ≠ a := by
        intro he
        subst he
        rw [hab] at hbb
        cases hbb
      have hFa : (ballFlags s).getD a false = true := by
        rw [← get_agent_ball_eq_getD]
        exact hab
      have hlena : a < (ballFlags s).length := by
        rw [ballFlags_length]
        exact hin a ham
      have hlenb : b < (ballFlags s).length := by
        rw [ballFlags_length]
        exact hin b hbm
      have hF : ballFlags (s.switch_ball a b) =
          ((ballFlags s).set a false).set b true := by
        rw [ballFlags_switch_ball, hFa]
        rfl
      refine ⟨b, hbm, hba, hbb, ?_, ?_, ?_⟩
      · simp only [update_ball_possession]
        rw [hfold, hget]
      · rw [get_agent_ball_eq_getD, hF,
          list_getD_set_ne _ _ _ _ _ hba,
          list_getD_set_self _ _ _ _ hlena]
      · rw [get_agent_ball_eq_getD, hF,
          list_getD_set_self _ _ _ _ (by rw [List.length_set]; exact hlenb)]
  · intro md n pick fuel s intended s' intended' hs' h
    rcases (update_agent_pos_loop_acc h).2 rfl with ⟨he, _⟩ | ⟨a, b, he, _⟩
    · exact Or.inl he
    · exact Or.inr ⟨a, b, he⟩
  · intro md n pick s intended hs s' intended' hs' det h g hgmem hglen i him
    exact ((overlap_iteration_spec h).2.2.2.2.2 i).1 ⟨g, hgmem, hglen, him⟩

/-- Witness for C4 at the concrete clash of `stateBall0`: the holder
agent 0 and non-holder agent 1 claim the same tile; the switch hands
the ball to agent 1, a full loop run changes the state by exactly one
switch, and the clash iteration resets agent 0's intended tile. -/
theorem c4_witness :
    (∃ b ∈ [0, 1], b ≠ 0 ∧ stateBall0.get_agent_ball b = false ∧
      update_ball_possession stateBall0 0 [0, 1] =
        Except.ok (stateBall0.switch_ball 0 b, true) ∧
      (stateBall0.switch_ball 0 b).get_agent_ball 0 = false ∧
      (stateBall0.switch_ball 0 b).get_agent_ball b = true) ∧
    (stateBall0 = stateBall0 ∨
      ∃ a b, stateBall0 = stateBall0.switch_ball a b) ∧
    ((updFn (updFn intendedClash 0
        ((stateBall0.switch_ball 0 1).get_agent_pos 0)) 1
        ((stateBall0.switch_ball 0 1).get_agent_pos 1)) 0 =
      stateBall0.get_agent_pos 0) := by
  refine ⟨?_, ?_, ?_⟩
  · exact c4_ball_switch_behavior.1 stateBall0 0 [0, 1] 0 (by decide)
      (by decide) (by decide) (by decide) (by decide) (by decide)
  · exact c4_ball_switch_behavior.2.1 mdCorridor 2 0 1 stateBall0
      intendedSeparate stateBall0 intendedSeparate false rfl
  · exact c4_ball_switch_behavior.2.2 mdCorridor 2 0 stateBall0
      intendedClash false (stateBall0.switch_ball 0 1)
      (updFn (updFn intendedClash 0
        ((stateBall0.switch_ball 0 1).get_agent_pos 0)) 1
        ((stateBall0.switch_ball 0 1).get_agent_pos 1)) true true rfl
      (⟨1, 0⟩, [0, 1]) (by decide) (by decide) 0 (by decide)

/-! ## Reset establishes the invariants -/

theorem pick_spawn_pos_not_occupied (spawnList : List Pos)
    (occupied : Pos → Bool) (posR : Nat → Nat) :
    ∀ (t fuel : Nat) (p : Pos) (t1 : Nat),
      pick_spawn_pos spawnList occupied posR t fuel = some (p, t1) →
      occupied p = false
  | t, 0, p, t1, h => by cases h
  | t, fuel + 1, p, t1, h => by
    simp only [pick_spawn_pos] at h
    split at h
    · cases h
    · rename_i q hg
      by_cases hocc : occupied q = true
      · rw [if_pos hocc] at h
        exact pick_spawn_pos_not_occupied spawnList occupied posR
          (t + 1) fuel p t1 h
      · rw [if_neg hocc] at h
        injection h with h1
        rw [Prod.mk.injEq] at h1
        rw [← h1.1]
        cases hov : occupied q
        · rfl
        · exact absurd hov hocc

theorem randomize_aux_spec (md : SoccerMapData) (thb : Team) (tahb : Nat)
    (r : ResetRand) :
    ∀ (refs : List AgentRef) (acc : List AgentEntry) (t : Nat)
      (l : List AgentEntry),
      randomize_aux md thb tahb r refs acc t = some l →
      l.length = acc.length + refs.length ∧
      ((acc.map (fun e => e.pos)).Nodup → (l.map (fun e => e.pos)).Nodup) ∧
      l.countP (fun e => e.ball) = acc.countP (fun e => e.ball) +
        refs.countP (fun ref =>
          decide (ref.team_name = thb ∧ ref.team_agent_index = tahb))
  | [], acc, t, l, h => by
    simp only [randomize_aux] at h
    injection h with h1
    subst h1
    simp
  | ref :: refs, acc, t, l, h => by
    simp only [randomize_aux] at h
    cases hp : pick_spawn_pos (md.spawn ref.team_name)
        (fun p => decide (p ∈ acc.map (fun e => e.pos))) r.posR t
        r.posFuel with
    | none =>
      rw [hp] at h
      cases h
    | some pt =>
      obtain ⟨agent_pos, t1⟩ := pt
      rw [hp] at h
      obtain ⟨hlen, hnod, hcnt⟩ := randomize_aux_spec md thb tahb r refs
        (acc ++ [randomize_entry thb tahb r ref agent_pos]) t1 l h
      refine ⟨?_, ?_, ?_⟩
      · rw [hlen]
        simp only [List.length_append, List.length_cons, List.length_nil]
        omega
      · intro haccnod
        apply hnod
        rw [List.map_append]
        refine List.Nodup.append haccnod (by simp) ?_
        intro x hx hy
        rw [List.map_singleton, List.mem_singleton] at hy
        have hocc := pick_spawn_pos_not_occupied (md.spawn ref.team_name)
          (fun p => decide (p ∈ acc.map (fun e => e.pos))) r.posR t
          r.posFuel agent_pos t1 hp
        simp at hocc
        have hxe : x = agent_pos := by
          rw [hy]
          rfl
        obtain ⟨e, hemem, hepos⟩ := List.mem_map.mp hx
        exact hocc e hemem (by rw [hepos, hxe])
      · have hb : [randomize_entry thb tahb r ref agent_pos].countP
            (fun e => e.ball) =
            if decide (ref.team_name = thb ∧
              ref.team_agent_index = tahb) = true then 1 else 0 := by
          rw [List.countP_singleton]
          rfl
        have hc : (if (fun ref2 => decide (ref2.team_name = thb ∧
            ref2.team_agent_index = tahb)) ref = true then 1 else 0) =
            (if decide (ref.team_name = thb ∧
              ref.team_agent_index = tahb) = true then 1 else 0) := rfl
        rw [hcnt, List.countP_append, hb, List.countP_cons, hc]
        omega

theorem count_range_eq (m : Nat) :
    ∀ (n : Nat), (List.range n).countP (fun k => decide (k = m)) =
      if m < n then 1 else 0
  | 0 => by simp
  | n + 1 => by
    rw [List.range_succ, List.countP_append, count_range_eq m n]
    simp only [List.countP_singleton]
    by_cases hm : m = n
    · subst hm
      rw [if_neg (show ¬ m < m by omega),
        if_pos (show m < m + 1 by omega)]
      simp
    · by_cases hm2 : m < n
      · rw [if_pos hm2, if_pos (show m < n + 1 by omega)]
        have hnm : ¬ n = m := by omega
        simp [hnm]
      · rw [if_neg hm2, if_neg (show ¬ m < n + 1 by omega)]
        have hnm : ¬ n = m := by omega
        simp [hnm]

theorem agent_enum_ball_count (opts : SoccerEnvironmentOptions)
    (thb : Team) (tahb : Nat) (h : tahb < opts.team_size) :
    (agent_enum opts).countP (fun ref =>
      decide (ref.team_name = thb ∧ ref.team_agent_index = tahb)) = 1 := by
  simp only [agent_enum, team_names, List.flatMap_cons, List.flatMap_nil,
    List.append_nil, List.countP_append, List.countP_map]
  have hcount : ∀ (t : Team),
      (List.range opts.team_size).countP ((fun ref =>
        decide (ref.team_name = thb ∧ ref.team_agent_index = tahb)) ∘
        (fun k => (⟨t, k, get_agent_index opts t k⟩ : AgentRef))) =
      if t = thb then 1 else 0 := by
    intro t
    by_cases ht : t = thb
    · rw [if_pos ht]
      have hcong : (List.range opts.team_size).countP ((fun ref =>
          decide (ref.team_name = thb ∧ ref.team_agent_index = tahb)) ∘
          (fun k => (⟨t, k, get_agent_index opts t k⟩ : AgentRef))) =
          (List.range opts.team_size).countP
            (fun k => decide (k = tahb)) := by
        apply List.countP_congr
        intro k _
        simp [Function.comp, ht]
      rw [hcong, count_range_eq, if_pos h]
    · rw [if_neg ht]
      apply List.countP_eq_zero.mpr
      intro k _
      simp [Function.comp, ht]
  rw [hcount Team.PLAYER, hcount Team.COMPUTER]
  cases thb
  · simp
  · simp

/-- A successful `reset` yields a full roster with pairwise-distinct
positions and exactly one ball. -/
theorem reset_spec {opts : SoccerEnvironmentOptions} {md : SoccerMapData}
    {r : ResetRand} {s : SoccerState} (hts : 1 ≤ opts.team_size)
    (h : SoccerState.reset opts md r = some s) :
    s.agent_list.length = get_agent_size opts ∧ (posList s).Nodup ∧
    ballCount s = 1 := by
  simp only [SoccerState.reset, SoccerState.randomize] at h
  cases hrand : randomize_aux md
      (team_names.getD (r.teamBallR % team_names.length) Team.PLAYER)
      (r.agentBallR % opts.team_size) r (agent_enum opts) [] 0 with
  | none =>
    rw [hrand] at h
    cases h
  | some l =>
    rw [hrand] at h
    simp only [Option.map_some'] at h
    injection h with h1
    subst h1
    obtain ⟨hlen, hnod, hcnt⟩ := randomize_aux_spec md _ _ r
      (agent_enum opts) [] 0 l hrand
    have htahb : r.agentBallR % opts.team_size < opts.team_size :=
      Nat.mod_lt _ (by omega)
    refine ⟨?_, ?_, ?_⟩
    · show l.length = get_agent_size opts
      rw [hlen, agent_enum_length]
      simp [get_agent_size]
    · exact hnod (by simp)
    · show l.countP (fun e => e.ball) = 1
      rw [hcnt, agent_enum_ball_count opts _ _ htahb]
      rfl

/-! ## Step preserves the invariants -/

theorem ballCount_congr {s s' : SoccerState}
    (h : ballFlags s = ballFlags s') : ballCount s = ballCount s' := by
  rw [ballCount_eq_countP_flags, ballCount_eq_countP_flags, h]

theorem list_two_mem_lt_length {l : List Nat} {i j : Nat}
    (hi : i ∈ l) (hj : j ∈ l) (hij : i ≠ j) : 1 < l.length := by
  cases l with
  | nil => exact absurd hi (List.not_mem_nil i)
  | cons a t =>
    cases t with
    | nil =>
      rw [List.mem_singleton] at hi hj
      exact absurd (hi.trans hj.symm) hij
    | cons b t2 =>
      simp only [List.length_cons]
      omega

theorem update_agent_pos_spec (opts : SoccerEnvironmentOptions)
    (md : SoccerMapData) (s : SoccerState) (intended : Nat → Pos)
    (pick : Nat) (hlen : s.agent_list.length = get_agent_size opts)
    (hnod : (posList s).Nodup) (hball : ballCount s ≤ 1)
    (hP : ∀ i, i < get_agent_size opts →
      intended i ∈ md.walkable ∨ intended i = s.get_agent_pos i) :
    ∃ s2, update_agent_pos opts md s intended pick = Except.ok s2 ∧
      ballCount s2 = ballCount s ∧
      s2.agent_list.length = s.agent_list.length ∧
      (posList s2).Nodup ∧ s2.time_step = s.time_step := by
  obtain ⟨s1, f1, hs1, hloop, hp1, hc1, hj1, hfix⟩ :=
    @update_agent_pos_loop_ok md (get_agent_size opts) pick
      (get_agent_size opts + 1) s intended false hlen.symm hnod hball
      (by have := movers_le s (get_agent_size opts) intended; omega)
  have hn1 : get_agent_size opts = s1.agent_list.length := by
    rw [← posList_length, hp1, posList_length, hlen]
  obtain ⟨hct, hcb, hcp⟩ := commit_positions_spec (get_agent_size opts)
    s1 f1 hn1
  have heff : ∀ j, j < get_agent_size opts →
      effective_pos md s1 f1 j = f1 j := by
    intro j hj
    have hPj : f1 j ∈ md.walkable ∨ f1 j = s.get_agent_pos j := by
      rcases hj1 j with he | he
      · rcases hP j hj with hw | hc
        · exact Or.inl (he ▸ hw)
        · exact Or.inr (he ▸ hc)
      · exact Or.inr he
    unfold effective_pos
    rcases hPj with hw | hc
    · rw [if_neg (by simpa using hw)]
    · by_cases hw2 : f1 j ∈ md.walkable
      · rw [if_neg (by simpa using hw2)]
      · rw [if_pos (by simpa using hw2)]
        rw [hc]
        exact get_agent_pos_congr hp1 j
  have hinj : ∀ x ∈ List.range (get_agent_size opts),
      ∀ y ∈ List.range (get_agent_size opts), f1 x = f1 y → x = y := by
    intro x hx y hy hfeq
    by_contra hxy
    have hxn : x < get_agent_size opts := List.mem_range.mp hx
    have hyn : y < get_agent_size opts := List.mem_range.mp hy
    have hxeff : effective_pos md s1 f1 x = f1 x := heff x hxn
    have hyeff : effective_pos md s1 f1 y = f1 y := heff y hyn
    have hxf : x ∈ (List.range (get_agent_size opts)).filter
        (fun j => effective_pos md s1 f1 j = effective_pos md s1 f1 x) := by
      rw [List.mem_filter]
      exact ⟨hx, by simp⟩
    have hyf : y ∈ (List.range (get_agent_size opts)).filter
        (fun j => effective_pos md s1 f1 j = effective_pos md s1 f1 x) := by
      rw [List.mem_filter]
      refine ⟨hy, ?_⟩
      rw [hyeff, hxeff, ← hfeq]
      simp
    have hne : (List.range (get_agent_size opts)).filter
        (fun j => effective_pos md s1 f1 j = effective_pos md s1 f1 x)
        ≠ [] := fun he => by
      rw [he] at hxf
      exact List.not_mem_nil x hxf
    have hmem : (effective_pos md s1 f1 x,
        (List.range (get_agent_size opts)).filter
          (fun j => effective_pos md s1 f1 j =
            effective_pos md s1 f1 x)) ∈
        get_overlapping_pos_to_agent md s1 (get_agent_size opts) f1 :=
      (get_overlapping_mem_iff md s1 (get_agent_size opts) f1 _ _).mpr
        ⟨rfl, hne⟩
    have hle := hfix _ hmem
    have hgt := list_two_mem_lt_length hxf hyf hxy
    simp at hle
    omega
  refine ⟨commit_positions (get_agent_size opts) s1 f1, ?_, ?_, ?_, ?_, ?_⟩
  · simp only [update_agent_pos]
    rw [hloop]
    simp only [bind, Except.bind]
  · rw [ballCount_congr hcb, hc1]
  · rw [← posList_length, hcp, List.length_map, List.length_range, hlen]
  · rw [hcp]
    exact List.Nodup.map_on hinj (List.nodup_range _)
  · have hts1 : s1.time_step = s.time_step := by
      rcases (update_agent_pos_loop_acc hloop).2 rfl with ⟨he, _⟩ |
          ⟨a, b, he, _⟩
      · rw [he]
      · rw [he, time_step_switch_ball]
    rw [hct, hts1]

theorem posList_increase_time_step (s : SoccerState) :
    posList s.increase_time_step = posList s := rfl

theorem ballFlags_increase_time_step (s : SoccerState) :
    ballFlags s.increase_time_step = ballFlags s := rfl

theorem take_action_preserves {opts : SoccerEnvironmentOptions}
    {md : SoccerMapData} {s : SoccerState} {action : List Action}
    {r : StepRand} {obs : SoccerObservation} {s' : SoccerState}
    (hlen : s.agent_list.length = get_agent_size opts)
    (hnod : (posList s).Nodup) (hball : ballCount s ≤ 1)
    (h : take_action opts md s action r = Except.ok (obs, s')) :
    s'.agent_list.length = get_agent_size opts ∧ (posList s').Nodup ∧
    ballCount s' = ballCount s := by
  simp only [take_action] at h
  obtain ⟨a1, hwrap, h2⟩ := except_bind_ok h
  obtain ⟨p, hip, h3⟩ := except_bind_ok h2
  obtain ⟨si, fi⟩ := p
  obtain ⟨su, hup, h4⟩ := except_bind_ok h3
  injection h4 with h5
  rw [Prod.mk.injEq] at h5
  obtain ⟨hobs, hst⟩ := h5
  unfold get_intended_pos at hip
  obtain ⟨hposi, hballi, htimei, _, hPmk⟩ :=
    intended_pos_aux_spec opts md a1 r (agent_enum opts) s _ si fi hip
  have hnodenum : ((agent_enum opts).map
      (fun ref => ref.agent_index)).Nodup := by
    rw [agent_enum_map_index]
    exact List.nodup_range _
  have hPi : ∀ i, i < get_agent_size opts →
      fi i ∈ md.walkable ∨ fi i = si.get_agent_pos i := by
    intro i hi
    have hmem : i ∈ (agent_enum opts).map (fun ref => ref.agent_index) := by
      rw [agent_enum_map_index]
      exact List.mem_range.mpr (by
        have : get_agent_size opts = 2 * opts.team_size := rfl
        omega)
    obtain ⟨ref, href, hrefi⟩ := List.mem_map.mp hmem
    subst hrefi
    rcases hPmk hnodenum ref href with hw | he
    · exact Or.inl hw
    · refine Or.inr ?_
      rw [he]
      exact (get_agent_pos_congr hposi ref.agent_index).symm
  have hleni : si.agent_list.length = get_agent_size opts := by
    rw [← posList_length, hposi, posList_length, hlen]
  have hnodi : (posList si).Nodup := by
    rw [hposi]
    exact hnod
  have hballi2 : ballCount si = ballCount s := ballCount_congr hballi
  obtain ⟨s2, hupeq, hc2, hl2, hn2, _⟩ := update_agent_pos_spec opts md si
    fi r.ballPick hleni hnodi (by rw [hballi2]; exact hball) hPi
  rw [hupeq] at hup
  injection hup with hsu
  subst hsu
  subst hst
  refine ⟨?_, ?_, ?_⟩
  · show s2.agent_list.length = get_agent_size opts
    rw [hl2, hleni]
  · show (posList s2.increase_time_step).Nodup
    rw [posList_increase_time_step]
    exact hn2
  · show ballCount s2.increase_time_step = ballCount s
    rw [ballCount_congr (ballFlags_increase_time_step s2), hc2, hballi2]

/-- Every state reachable through the public interface has the full
`2*teamSize` roster, pairwise-distinct positions, and exactly one
ball. -/
theorem reachable_inv {opts : SoccerEnvironmentOptions}
    {md : SoccerMapData} (hts : 1 ≤ opts.team_size) {s : SoccerState}
    (h : Reachable opts md s) :
    s.agent_list.length = get_agent_size opts ∧ (posList s).Nodup ∧
    ballCount s = 1 := by
  induction h with
  | reset r s hr => exact reset_spec hts hr
  | step s s' a r obs hreach heq ih =>
    obtain ⟨hl, hn, hc⟩ := ih
    obtain ⟨hl', hn', hc'⟩ := take_action_preserves hl hn (by omega) heq
    exact ⟨hl', hn', by rw [hc', hc]⟩

/-! ## Claim C1: ball-possession uniqueness -/

/-- C1: in every state reachable through the public interface
(immediately after `reset`, and after every successful `take_action`),
exactly one agent among all `2*teamSize` agents has its ball flag true:
the ball is never destroyed and never duplicated. -/
theorem c1_ball_uniqueness (opts : SoccerEnvironmentOptions)
    (md : SoccerMapData) (s : SoccerState) (hts : 1 ≤ opts.team_size)
    (h : Reachable opts md s) :
    s.agent_list.length = 2 * opts.team_size ∧ ballCount s = 1 := by
  obtain ⟨hl, _, hc⟩ := reachable_inv hts h
  exact ⟨by rw [hl]; rfl, hc⟩

/-- Witness for C1: the corridor reset state is reachable and carries
exactly one ball on its two-agent roster. -/
theorem c1_witness :
    stateReset0.agent_list.length = 2 * opts1.team_size ∧
    ballCount stateReset0 = 1 :=
  c1_ball_uniqueness opts1 mdCorridor stateReset0 (by decide)
    (Reachable.reset resetRand0 stateReset0 (by decide))

/-! ## Claim C2: position distinctness -/

/-- C2: in every reachable state — after `reset`'s sequential spawn
placement with occupied-tile rejection, and after every committed
`take_action` — no two distinct agents occupy the same tile. -/
theorem c2_position_distinctness (opts : SoccerEnvironmentOptions)
    (md : SoccerMapData) (s : SoccerState) (hts : 1 ≤ opts.team_size)
    (h : Reachable opts md s) : (posList s).Nodup :=
  (reachable_inv hts h).2.1

/-- Witness for C2: the corridor reset state has distinct agent
positions. -/
theorem c2_witness : (posList stateReset0).Nodup :=
  c2_position_distinctness opts1 mdCorridor stateReset0 (by decide)
    (Reachable.reset resetRand0 stateReset0 (by decide))

end PygameSoccer
